import Mathlib

/-!
Cricket-Auction browser client: token store, request pipeline, session
bootstrap, bid submission, admin actions.

A shallow embedding of `static/app.js` (bidder page) and `static/admin.js`
(admin console).

Modelling conventions.

* JavaScript values that the code treats as "a string or nothing" (tokens,
  `detail`, `message`, `team_id`, DOM `value`s, `localStorage.getItem`
  results) are `JsVal`: `undefined`, `null` or a string.  Flags that the code
  only tests for truthiness (`ok`, `is_admin`) are `Bool`.
* `localStorage` and plain header objects are association lists (`Dict`).
* An `async` function is a state-passing function on `World`; the network is
  a function `Net` from the requests issued so far and the current request to
  the outcome of `fetch` (`none`: the promise rejects).  A result `none` of
  an `async` function means that its promise rejects (an exception
  propagates); each handler runs to completion without interleaving, and
  calls that the source starts without `await` are run one after the other.
* Of the document, `World` holds the `team-picker` select and the elements
  that the screen functions show and hide; the lists and indicators that the
  loaders render are not part of it.
-/

set_option maxRecDepth 8192

namespace CricketAuction

/-! ## JavaScript values -/

/-- A JavaScript value that is a string or missing. -/
inductive JsVal where
  | undefined
  | null
  | str (s : String)
  deriving DecidableEq, Repr

namespace JsVal

/-- JavaScript truthiness (`if (v)`, `!v`, `v || w`): only a non-empty string is truthy. -/
def truthy : JsVal → Bool
  | str s => s != ""
  | _ => false

/-- String conversion as done by a template literal and by `localStorage.setItem`. -/
def toStr : JsVal → String
  | undefined => "undefined"
  | null => "null"
  | str s => s

/-- The JavaScript expression `a || b`. -/
def or (a b : JsVal) : JsVal := if a.truthy then a else b

end JsVal

/-- A JavaScript number (an IEEE 754 double): `NaN`, an infinity, or the
finite value `±mant·2^exp`.  Every finite double is written in one way: `neg`
is the sign bit, `mant` is odd, and zero is `fin neg 0 0` (so `-0` is
`fin true 0 0`). -/
inductive JsNum where
  | nan
  | inf (neg : Bool)
  | fin (neg : Bool) (mant : Nat) (exp : Int)
  deriving DecidableEq, Repr

namespace JsNum

/-- Truthiness of a number: `NaN`, `0` and `-0` are falsy. -/
def truthy : JsNum → Bool
  | nan => false
  | inf _ => true
  | fin _ mant _ => mant != 0

/-- The comparison `n <= 0` (false for `NaN`). -/
def leZero : JsNum → Bool
  | nan => false
  | inf neg => neg
  | fin neg mant _ => neg || mant == 0

end JsNum

/-! ## The conversion `Number(string)` -/

/-- White space and line terminators that `Number` strips from both ends. -/
def isStrWhiteSpace (c : Char) : Bool :=
  let n := c.toNat
  n == 9 || n == 10 || n == 11 || n == 12 || n == 13 || n == 32 || n == 160 ||
  n == 0x1680 || (decide (0x2000 ≤ n) && decide (n ≤ 0x200A)) || n == 0x2028 ||
  n == 0x2029 || n == 0x202F || n == 0x205F || n == 0x3000 || n == 0xFEFF

/-- The string without leading and trailing white space. -/
def trimWhiteSpace (cs : List Char) : List Char :=
  ((cs.dropWhile isStrWhiteSpace).reverse.dropWhile isStrWhiteSpace).reverse

/-- The value of a digit in a base up to 16, if the character is one. -/
def digitValue (base : Nat) (c : Char) : Option Nat :=
  let n := c.toNat
  let v : Option Nat :=
    if 48 ≤ n ∧ n ≤ 57 then some (n - 48)
    else if 97 ≤ n ∧ n ≤ 102 then some (n - 87)
    else if 65 ≤ n ∧ n ≤ 70 then some (n - 55)
    else none
  match v with
  | some d => if d < base then some d else none
  | none => none

/-- The value of a non-empty digit string in the given base. -/
def digitsValue (base : Nat) (cs : List Char) : Option Nat :=
  if cs = [] then none
  else cs.foldl (fun acc c =>
    match acc, digitValue base c with
    | some a, some d => some (a * base + d)
    | _, _ => none) (some 0)

/-- The number of binary digits of `n`, by halving; `fuel` bounds the number of steps. -/
def bitLength : Nat → Nat → Nat
  | 0, _ => 0
  | fuel + 1, n => if n = 0 then 0 else bitLength fuel (n / 2) + 1

/-- The integer part of the binary logarithm of a positive number. -/
def ilog2 (n : Nat) : Nat := bitLength n n - 1

/-- The double nearest to the positive rational `n / d`, ties to even, as the
pair `(mant, exp)` of `JsNum.fin`; `none` when the value rounds to `2^1024` or
more.  With `k` the integer part of the binary logarithm of `n / d`, the last
place of the double has the weight `2^e` for `e = max (k - 52) (-1074)`. -/
def roundRatio (n d : Nat) : Option (Nat × Int) :=
  let k0 : Int := (ilog2 n : Int) - (ilog2 d : Int)
  let ge : Bool :=
    if 0 ≤ k0 then decide (d * 2 ^ k0.toNat ≤ n) else decide (d ≤ n * 2 ^ (-k0).toNat)
  let k : Int := if ge then k0 else k0 - 1
  let e : Int := max (k - 52) (-1074)
  let num : Nat := if 0 ≤ e then n else n * 2 ^ (-e).toNat
  let den : Nat := if 0 ≤ e then d * 2 ^ e.toNat else d
  let q := num / den
  let r := num % den
  let q1 := if den < 2 * r then q + 1 else if 2 * r = den then q + q % 2 else q
  if q1 = 0 then some (0, 0)
  else
    let low := Nat.gcd q1 (2 ^ 54)
    let mant := q1 / low
    let exp : Int := e + (ilog2 low : Int)
    if 1024 ≤ (ilog2 mant : Int) + exp then none else some (mant, exp)

/-- The double nearest to `±mant·10^exp`: an infinity on overflow, a zero on underflow. -/
def roundDecimal (neg : Bool) (mant : Nat) (exp : Int) : JsNum :=
  if mant = 0 then JsNum.fin neg 0 0
  else
    match (if 0 ≤ exp then roundRatio (mant * 10 ^ exp.toNat) 1
           else roundRatio mant (10 ^ (-exp).toNat)) with
    | some (m, e) => JsNum.fin neg m e
    | none => JsNum.inf neg

/-- An unsigned decimal literal: `Infinity`, or digits with an optional
fraction and an optional exponent (`12`, `12.`, `12.5`, `.5`, `1e3`, `1.5E-3`). -/
def parseUnsignedDecimal (neg : Bool) (cs : List Char) : JsNum :=
  if cs = "Infinity".toList then JsNum.inf neg
  else
    let ip := cs.takeWhile Char.isDigit
    let r1 := cs.dropWhile Char.isDigit
    let fp := match r1 with
      | '.' :: t => t.takeWhile Char.isDigit
      | _ => []
    let r2 := match r1 with
      | '.' :: t => t.dropWhile Char.isDigit
      | _ => r1
    if ip = [] ∧ fp = [] then JsNum.nan
    else
      match digitsValue 10 (ip ++ fp) with
      | none => JsNum.nan
      | some mant =>
        match r2 with
        | [] => roundDecimal neg mant (-(fp.length : Int))
        | e :: t =>
          if e = 'e' ∨ e = 'E' then
            match t with
            | '-' :: ds =>
              match digitsValue 10 ds with
              | some x => roundDecimal neg mant (-(x : Int) - fp.length)
              | none => JsNum.nan
            | '+' :: ds =>
              match digitsValue 10 ds with
              | some x => roundDecimal neg mant ((x : Int) - fp.length)
              | none => JsNum.nan
            | ds =>
              match digitsValue 10 ds with
              | some x => roundDecimal neg mant ((x : Int) - fp.length)
              | none => JsNum.nan
          else JsNum.nan

/-- The conversion `Number(s)` of a string: white space is trimmed; the empty
string is `0`; `0x`, `0o`, `0b` integers; otherwise a signed decimal
literal; anything else is `NaN`. -/
def jsNumber (s : String) : JsNum :=
  match trimWhiteSpace s.toList with
  | [] => JsNum.fin false 0 0
  | '0' :: 'x' :: ds | '0' :: 'X' :: ds =>
    match digitsValue 16 ds with
    | some n => roundDecimal false n 0
    | none => JsNum.nan
  | '0' :: 'o' :: ds | '0' :: 'O' :: ds =>
    match digitsValue 8 ds with
    | some n => roundDecimal false n 0
    | none => JsNum.nan
  | '0' :: 'b' :: ds | '0' :: 'B' :: ds =>
    match digitsValue 2 ds with
    | some n => roundDecimal false n 0
    | none => JsNum.nan
  | '-' :: cs => parseUnsignedDecimal true cs
  | '+' :: cs => parseUnsignedDecimal false cs
  | cs => parseUnsignedDecimal false cs

/-- The expression `Number(v || 0)`. -/
def numberOrZero (v : JsVal) : JsNum :=
  if v.truthy then jsNumber v.toStr else JsNum.fin false 0 0

/-- The number as `JSON.stringify` writes it: `none` (JSON `null`) for `NaN` and the infinities. -/
def jsonNumber : JsNum → Option JsNum
  | JsNum.fin neg mant exp => some (JsNum.fin neg mant exp)
  | _ => none

/-! ## Plain objects with string values -/

/-- A plain object / `Storage` with string keys and string values. -/
abbrev Dict := List (String × String)

namespace Dict

/-- Property read `o[k]`. -/
def get? : Dict → String → Option String
  | [], _ => none
  | (k', v) :: t, k => if k' = k then some v else get? t k

/-- Property write `o[k] = v`: replaces an existing entry, else appends. -/
def set : Dict → String → String → Dict
  | [], k, v => [(k, v)]
  | (k', v') :: t, k, v => if k' = k then (k, v) :: t else (k', v') :: set t k v

/-- Removal of a key. -/
def erase (d : Dict) (k : String) : Dict := d.filter (fun p => p.1 != k)

/-- The call `Object.assign(target, src)`: every property of `src`, in order, is written to `target`. -/
def assign (target src : Dict) : Dict := src.foldl (fun t p => t.set p.1 p.2) target

end Dict

/-! ## Requests, responses, the page state -/

/-- The `body` of a request. -/
inductive ReqBody where
  | none
  | form (fields : Dict)
  | bidJson (player_id team_id : String) (bid_amount : Option JsNum)
  deriving DecidableEq, Repr

/-- The `options` argument of `fetch` / `api`. -/
structure Options where
  method : Option String := none
  headers : Option Dict := none
  body : ReqBody := ReqBody.none
  deriving DecidableEq, Repr

/-- A request as issued by `fetch(url, options)`. -/
structure Request where
  url : String
  method : String
  headers : Dict
  body : ReqBody
  deriving DecidableEq, Repr

/-- The request that `fetch(url, options)` issues. -/
def Request.of (url : String) (options : Options) : Request :=
  { url := url, method := options.method.getD "GET",
    headers := options.headers.getD [], body := options.body }

/-- The user object of `GET /me`. -/
structure User where
  is_admin : Bool := false
  team_id : JsVal := JsVal.undefined
  deriving DecidableEq, Repr

/-- A non-null JSON value as seen through the properties the client reads;
`ids` is `some l` exactly when the value is an array, `l` listing the `_id`
of its elements as strings. -/
structure Payload where
  ok : Bool := false
  detail : JsVal := JsVal.undefined
  message : JsVal := JsVal.undefined
  access_token : JsVal := JsVal.undefined
  refresh_token : JsVal := JsVal.undefined
  user : Option User := none
  ids : Option (List String) := none
  deriving DecidableEq, Repr

/-- The result of `res.json()`. -/
inductive Body where
  | unreadable
  | null
  | val (p : Payload)
  deriving DecidableEq, Repr

/-- The value of `await res.json()` followed by a property read: `none` when
that throws (the body is not JSON, or is JSON `null`). -/
def Body.fields : Body → Option Payload
  | Body.val p => some p
  | _ => none

/-- A `fetch` response. -/
structure Response where
  status : Nat
  body : Body := Body.unreadable
  deriving DecidableEq, Repr

/-- The property `res.ok`: the status is in the range 200-299. -/
def Response.ok (r : Response) : Bool := decide (200 ≤ r.status) && decide (r.status ≤ 299)

/-- The `team-picker` select element. -/
structure Select where
  options : List String := []
  value : String := ""
  disabled : Bool := false
  deriving DecidableEq, Repr

/-- The assignment `select.value = v`: the first option with that value
becomes the selected one; without such an option nothing is selected and the
value reads as the empty string. -/
def Select.setValue (sel : Select) (v : String) : Select :=
  { sel with value := if v ∈ sel.options then v else "" }

/-- The state of a page: `localStorage`, the requests issued so far (oldest
first), the `alert` messages shown so far, the globals `CURRENT_USER` and
`WATCH_MODE`, and the elements of the document that the screen functions
touch.  An element that the document may lack is an `Option` (`none`: the
element is absent): `teamPicker` is the `team-picker` select; `authCard`,
`modeCard`, `playerCard`, `adminCard`, `appCard`, `logoutBtn`, `btnStart`
and `btnStop` hold the inline `style.display` of the element (`""`: shown,
`"none"`: hidden); `adminStartWrapper` tells whether the element has the
class `d-none`; `adminList` tells whether `admin-pending-list` exists;
`location` is the target of an assignment to `window.location.href`. -/
structure World where
  localStorage : Dict := []
  requests : List Request := []
  alerts : List String := []
  CURRENT_USER : Option User := none
  teamPicker : Option Select := none
  WATCH_MODE : Bool := false
  authCard : Option String := none
  modeCard : Option String := none
  playerCard : Option String := none
  adminCard : Option String := none
  appCard : Option String := none
  logoutBtn : Option String := none
  btnStart : Option String := none
  btnStop : Option String := none
  adminStartWrapper : Option Bool := none
  adminList : Bool := false
  location : Option String := none
  deriving DecidableEq, Repr

/-- The network: given the requests issued before and the current request,
the response (`none`: `fetch` rejects). -/
abbrev Net := List Request → Request → Option Response

/-- The call `fetch(url, options)`: the request is recorded and answered by the network. -/
def fetch (net : Net) (w : World) (url : String) (options : Options) : World × Option Response :=
  let req := Request.of url options
  ({ w with requests := w.requests ++ [req] }, net w.requests req)

/-- The call `alert(msg)`. -/
def alert (w : World) (msg : String) : World := { w with alerts := w.alerts ++ [msg] }

/-! ## Token helpers (`app.js` lines 2-5) -/

/-- The call `localStorage.getItem(k)`. -/
def getItem (w : World) (k : String) : JsVal :=
  match w.localStorage.get? k with
  | some v => JsVal.str v
  | none => JsVal.null

/-- The call `localStorage.setItem(k, v)`. -/
def setItem (w : World) (k : String) (v : JsVal) : World :=
  { w with localStorage := w.localStorage.set k v.toStr }

/-- The call `localStorage.removeItem(k)`. -/
def removeItem (w : World) (k : String) : World :=
  { w with localStorage := w.localStorage.erase k }

def getAccess (w : World) : JsVal := getItem w "access"

def getRefresh (w : World) : JsVal := getItem w "refresh"

def setTokens (w : World) (a r : JsVal) : World :=
  let w1 := if a.truthy then setItem w "access" a else w
  if r.truthy then setItem w1 "refresh" r else w1

def clearTokens (w : World) : World := removeItem (removeItem w "access") "refresh"

/-! ## The request pipeline -/

/-- The object `access ? { Authorization: "Bearer " + access } : {}`. -/
def bearer (access : JsVal) : Dict :=
  if access.truthy then [("Authorization", "Bearer " ++ access.toStr)] else []

/-- The headers `Object.assign({}, options.headers, bearer)` of the first attempt. -/
def firstHeaders (w : World) (options : Options) : Dict :=
  Dict.assign (Dict.assign [] (options.headers.getD [])) (bearer (getAccess w))

/-- The request `fetch("/auth/refresh", ...)` carrying the stored refresh token as form data. -/
def refreshRequest (w : World) : Request :=
  { url := "/auth/refresh", method := "POST", headers := [],
    body := ReqBody.form [("refresh_token", (getRefresh w).toStr)] }

/-- The first request of `api(url, options)`: the caller's request with the merged headers. -/
def firstRequest (w : World) (url : String) (options : Options) : Request :=
  Request.of url { options with headers := some (firstHeaders w options) }

/-- The retry of `api(url, options)` in `app.js` after the refresh payload `d`:
the first request with `Authorization` overwritten (line 18). -/
def retryRequest (w : World) (url : String) (options : Options) (d : Payload) : Request :=
  Request.of url { options with
    headers := some ((firstHeaders w options).set "Authorization"
      ("Bearer " ++ d.access_token.toStr)) }

namespace App

/-- The function `api` of `app.js` (lines 7-25). -/
def api (net : Net) (w : World) (url : String) (options : Options) : World × Option Response :=
  let access := getAccess w
  let headers := Dict.assign (Dict.assign [] (options.headers.getD [])) (bearer access)
  let options : Options := { options with headers := some headers }
  match fetch net w url options with
  | (w1, none) => (w1, none)
  | (w1, some res) =>
    if res.status = 401 ∧ (getRefresh w1).truthy = true then
      let fd : Dict := [("refresh_token", (getRefresh w1).toStr)]
      match fetch net w1 "/auth/refresh" { method := some "POST", body := ReqBody.form fd } with
      | (w2, none) => (w2, none)
      | (w2, some rr) =>
        if rr.ok then
          match rr.body.fields with
          | none => (w2, none)
          | some d =>
            let w3 := setTokens w2 d.access_token JsVal.null
            let headers := headers.set "Authorization" ("Bearer " ++ d.access_token.toStr)
            fetch net w3 url { options with headers := some headers }
        else (clearTokens w2, some res)
    else (w1, some res)

/-- The function `loadStatus` of `app.js` (lines 250-260); the status
indicator it renders is not part of `World`. -/
def loadStatus (net : Net) (w : World) : World :=
  (fetch net w "/auction/status" {}).1

/-- The function `loadTeams` of `app.js` (lines 263-277): the team list is
fetched through `api` and the options of the team picker are rebuilt; every
exception is swallowed by the `catch`. -/
def loadTeams (net : Net) (w : World) : World :=
  match api net w "/teams" {} with
  | (w1, none) => w1
  | (w1, some r) =>
    match r.body with
    | Body.unreadable => w1
    | b =>
      match w1.teamPicker with
      | none => w1
      | some sel =>
        let sel1 : Select := { sel with options := [""], value := "" }
        match b.fields with
        | some teams =>
          match teams.ids with
          | some ids => { w1 with teamPicker := some { sel1 with options := "" :: ids } }
          | none => { w1 with teamPicker := some sel1 }
        | none => { w1 with teamPicker := some sel1 }

/-- The function `applyTeamLock` of `app.js` (lines 90-100). -/
def applyTeamLock (w : World) : World :=
  match w.teamPicker with
  | none => w
  | some teamSelect =>
    match w.CURRENT_USER with
    | some user =>
      if !user.is_admin && user.team_id.truthy then
        let tid := user.team_id
        { w with teamPicker := some { teamSelect.setValue tid.toStr with disabled := true } }
      else { w with teamPicker := some { teamSelect with disabled := false } }
    | none => { w with teamPicker := some { teamSelect with disabled := false } }

/-- The function `loadPlayers` of `app.js` (lines 280-320); the rows it
renders are not part of `World`. -/
def loadPlayers (net : Net) (w : World) : World :=
  (fetch net w "/players/" {}).1

/-- A row of the player list: its `data-player-id` and the value of its
`.bid-input` element, if it has one. -/
structure Row where
  playerId : JsVal := JsVal.undefined
  bidInput : Option String := none
  deriving DecidableEq, Repr

/-- A click inside the player list: whether it hit a bid button, and the
`.list-group-item` around that button, if any. -/
structure BidClick where
  onBidButton : Bool := true
  row : Option Row := none
  deriving DecidableEq, Repr

/-- The expression `Number(input?.value || 0)` for the `.bid-input` of a row (line 409). -/
def bidAmount (row : Row) : JsNum :=
  let inputValue : JsVal :=
    match row.bidInput with
    | some v => JsVal.str v
    | none => JsVal.undefined
  numberOrZero inputValue

/-- The team resolved in lines 412-417: the value of the team picker, or
`CURRENT_USER.team_id` when that value is empty. -/
def resolveTeam (w : World) (user : User) : JsVal :=
  let teamId : JsVal :=
    match w.teamPicker with
    | some teamSelect => JsVal.str teamSelect.value
    | none => JsVal.str ""
  if !teamId.truthy && user.team_id.truthy then user.team_id else teamId

/-- The options of the bid request (lines 424-432). -/
def bidOptions (playerId teamId : JsVal) (amount : JsNum) : Options :=
  { method := some "POST",
    headers := some [("Content-Type", "application/json")],
    body := ReqBody.bidJson playerId.toStr teamId.toStr (jsonNumber amount) }

/-- The three refetches after an accepted bid (lines 438-440), run one after the other. -/
def refetchAfterBid (net : Net) (w : World) : World :=
  let w1 := loadStatus net w
  let w2 := applyTeamLock (loadTeams net w1)
  loadPlayers net w2

/-- The bid click handler of `app.js` (lines 396-445). -/
def bidClick (net : Net) (w : World) (e : BidClick) : World :=
  if !e.onBidButton then w
  else
    match w.CURRENT_USER with
    | none => alert w "Please login first."
    | some user =>
      match e.row with
      | none => alert w "Player ID missing."
      | some row =>
        let playerId := row.playerId
        if !playerId.truthy then alert w "Player ID missing."
        else
          let amount := bidAmount row
          if !amount.truthy || amount.leZero then alert w "Enter a valid bid amount."
          else
            let teamId := resolveTeam w user
            if !teamId.truthy then alert w "Select a team first."
            else
              match api net w "/auction/bid" (bidOptions playerId teamId amount) with
              | (w1, none) => alert w1 "Error placing bid."
              | (w1, some res) =>
                match res.body.fields with
                | none => alert w1 "Error placing bid."
                | some data =>
                  if !res.ok || !data.ok then
                    alert w1 ((data.detail.or data.message).or (JsVal.str "Bid failed")).toStr
                  else refetchAfterBid net (alert w1 "Bid placed successfully!")

/-- The function `fetchMe` of `app.js` (lines 34-42): the user, or `none` for
the result `null` (also for a falsy `data.user`). -/
def fetchMe (net : Net) (w : World) : World × Option User :=
  match api net w "/me" {} with
  | (w1, none) => (w1, none)
  | (w1, some res) =>
    if !res.ok then (w1, none)
    else
      match res.body.fields with
      | none => (w1, none)
      | some data => ({ w1 with CURRENT_USER := data.user }, data.user)

/-- The statement `if (el) el.style.display = d`. -/
def setDisplay (el : Option String) (d : String) : Option String :=
  match el with
  | some _ => some d
  | none => none

/-- The function `showLogin` of `app.js` (lines 58-65). -/
def showLogin (w : World) : World :=
  { w with
    authCard := setDisplay w.authCard "",
    modeCard := setDisplay w.modeCard "none",
    playerCard := setDisplay w.playerCard "none",
    appCard := setDisplay w.appCard "none",
    adminCard := setDisplay w.adminCard "none",
    logoutBtn := setDisplay w.logoutBtn "none" }

/-- The function `showMode` of `app.js` (lines 67-74). -/
def showMode (w : World) : World :=
  { w with
    WATCH_MODE := false,
    authCard := setDisplay w.authCard "none",
    modeCard := setDisplay w.modeCard "",
    playerCard := setDisplay w.playerCard "none",
    appCard := setDisplay w.appCard "none",
    logoutBtn := setDisplay w.logoutBtn "" }

/-- The test `CURRENT_USER?.is_admin`. -/
def isAdmin (w : World) : Bool :=
  match w.CURRENT_USER with
  | some user => user.is_admin
  | none => false

/-- The function `showAdminIfNeeded` of `app.js` (lines 102-117). -/
def showAdminIfNeeded (w : World) : World :=
  if !isAdmin w then
    { w with
      btnStart := setDisplay w.btnStart "none",
      btnStop := setDisplay w.btnStop "none",
      adminCard := setDisplay w.adminCard "none",
      adminStartWrapper := w.adminStartWrapper.map (fun _ => true) }
  else
    { w with
      btnStart := setDisplay w.btnStart "",
      btnStop := setDisplay w.btnStop "",
      adminCard := setDisplay w.adminCard "",
      adminStartWrapper := w.adminStartWrapper.map (fun _ => false) }

/-- The function `adminLoadPending` of `app.js` (lines 216-247); the list it
renders is not part of `World`. -/
def adminLoadPending (net : Net) (w : World) : World :=
  if !w.adminList then w
  else (api net w "/admin/players/pending" {}).1

/-- The click handler of the logout button (lines 128-132). -/
def logoutClick (w : World) : World :=
  showLogin { clearTokens w with CURRENT_USER := none }

/-- The submit handler of `login-form` (lines 138-157); `fd` is the form data. -/
def loginSubmit (net : Net) (w : World) (fd : Dict) : World :=
  match fetch net w "/auth/login" { method := some "POST", body := ReqBody.form fd } with
  | (w1, none) => w1
  | (w1, some res) =>
    match res.body.fields with
    | none => w1
    | some data =>
      if !res.ok || !data.ok then alert w1 (data.detail.or (JsVal.str "Login failed")).toStr
      else
        let w2 := setTokens w1 data.access_token data.refresh_token
        match fetchMe net w2 with
        | (w3, none) => showLogin (clearTokens w3)
        | (w3, some _) =>
          let w4 := showMode (showAdminIfNeeded w3)
          let w5 := loadStatus net w4
          let w6 := applyTeamLock (loadTeams net w5)
          loadPlayers net w6

/-- The submit handler of `admin-login-form` (lines 162-182). -/
def adminLoginSubmit (net : Net) (w : World) (fd : Dict) : World :=
  match fetch net w "/auth/login" { method := some "POST", body := ReqBody.form fd } with
  | (w1, none) => w1
  | (w1, some res) =>
    match res.body.fields with
    | none => w1
    | some data =>
      if !res.ok || !data.ok then alert w1 (data.detail.or (JsVal.str "Login failed")).toStr
      else
        let w2 := setTokens w1 data.access_token data.refresh_token
        match fetchMe net w2 with
        | (w3, none) => alert (clearTokens w3) "This account is not an admin."
        | (w3, some _) =>
          if !isAdmin w3 then alert (clearTokens w3) "This account is not an admin."
          else { w3 with location := some "/admin" }

/-- The function `boot` of `app.js` (lines 545-560). -/
def boot (net : Net) (w : World) : World :=
  if !(getAccess w).truthy && !(getRefresh w).truthy then showLogin w
  else
    match fetchMe net w with
    | (w1, none) => showLogin (clearTokens w1)
    | (w1, some _) =>
      let w2 := showAdminIfNeeded w1
      let w3 := if isAdmin w2 then adminLoadPending net w2 else w2
      let w4 := showMode w3
      let w5 := loadStatus net w4
      let w6 := loadTeams net w5
      let w7 := applyTeamLock w6
      loadPlayers net w7

/-- An element is shown: it exists and its inline `style.display` is empty. -/
def shown (el : Option String) : Bool := el == some ""

/-- The Login screen as `showLogin` leaves it: the auth card is shown and
none of the mode, player, app and admin cards and the logout button is. -/
def onLoginScreen (w : World) : Bool :=
  shown w.authCard && !shown w.modeCard && !shown w.playerCard && !shown w.appCard &&
    !shown w.adminCard && !shown w.logoutBtn

/-- The Mode-select screen as `showMode` leaves it: the mode card is shown and
none of the auth, player and app cards is. -/
def onModeScreen (w : World) : Bool :=
  shown w.modeCard && !shown w.authCard && !shown w.playerCard && !shown w.appCard

end App

namespace Admin

/-- The function `api` of `admin.js` (lines 11-19). -/
def api (net : Net) (w : World) (url : String) (options : Options) : World × Option Response :=
  let token := getAccess w
  let headers := Dict.assign (Dict.assign [] (options.headers.getD [])) (bearer token)
  fetch net w url { options with headers := some headers }

/-- The function `loadTeamsIntoDropdowns` of `admin.js` (lines 175-184); the
dropdowns it fills are not part of `World`. -/
def loadTeamsIntoDropdowns (net : Net) (w : World) : World :=
  (api net w "/teams" {}).1

/-- The function `loadTeamsForAdmin` of `admin.js` (lines 98-111); the list
it renders is not part of `World`. -/
def loadTeamsForAdmin (net : Net) (w : World) : World :=
  (api net w "/teams" {}).1

/-- The function `loadPlayersAdmin` of `admin.js` (lines 116-172): the dropdowns
are filled only when the player list could be rendered. -/
def loadPlayersAdmin (net : Net) (w : World) : World :=
  match api net w "/players" {} with
  | (w1, none) => w1
  | (w1, some r) =>
    match r.body.fields with
    | some players =>
      if players.ids.isSome then loadTeamsIntoDropdowns net w1 else w1
    | none => w1

/-- The options of the bid request (lines 216-224). -/
def bidOptions (pid teamId : String) (amount : JsNum) : Options :=
  { method := some "POST",
    headers := some [("Content-Type", "application/json")],
    body := ReqBody.bidJson pid teamId (jsonNumber amount) }

/-- The function `placeBid(pid)` of `admin.js` (lines 210-230); `teamValue` and
`bidValue` are the values of the row's `team-<pid>` and `bid-<pid>`
elements. -/
def placeBid (net : Net) (w : World) (pid teamValue bidValue : String) : World :=
  let teamId := teamValue
  let amount := jsNumber bidValue
  if !amount.truthy then alert w "Enter amount"
  else
    match api net w "/auction/bid" (bidOptions pid teamId amount) with
    | (w1, none) => w1
    | (w1, some r) =>
      match r.body.fields with
      | none => w1
      | some d =>
        let w2 := alert w1 ((d.message.or d.detail).or (JsVal.str "Bid complete")).toStr
        let w3 := loadPlayersAdmin net w2
        loadTeamsForAdmin net w3

/-- The function `markSold(pid)` of `admin.js` (lines 235-245); `confirmed` is
the answer to the `confirm` dialog. -/
def markSold (net : Net) (w : World) (pid : String) (confirmed : Bool) : World :=
  if !confirmed then w
  else
    match api net w ("/auction/sold/" ++ pid) { method := some "POST" } with
    | (w1, none) => w1
    | (w1, some r) =>
      match r.body.fields with
      | none => w1
      | some d =>
        if !r.ok || !d.ok then alert w1 (d.detail.or (JsVal.str "Failed")).toStr
        else loadPlayersAdmin net (alert w1 "Player marked SOLD")

/-- The request of `markSold(pid)`: `POST /auction/sold/<pid>` with the bearer header. -/
def soldRequest (w : World) (pid : String) : Request :=
  firstRequest w ("/auction/sold/" ++ pid) { method := some "POST" }

/-- The page once `markSold(pid)` has sent its request. -/
def afterSoldRequest (w : World) (pid : String) : World :=
  { w with requests := w.requests ++ [soldRequest w pid] }

/-- Whether the answer to the `/players` request of `loadPlayersAdmin` is an
array, so that the rows are rendered and their team dropdowns filled. -/
def playersListed (net : Net) (w : World) : Bool :=
  match net w.requests (firstRequest w "/players" {}) with
  | some r =>
    match r.body.fields with
    | some players => players.ids.isSome
    | none => false
  | none => false

end Admin

/-! ## Runs of the bidder page -/

/-- The events of the bidder page that touch the session: the page load
(`boot`), the two login forms, the logout button, and a call of `api` by any
of the handlers. -/
inductive App.Event where
  | boot
  | login (fd : Dict)
  | adminLogin (fd : Dict)
  | logout
  | api (url : String) (options : Options)
  deriving DecidableEq, Repr

/-- The effect of one event on the page. -/
def App.step (net : Net) (w : World) : App.Event → World
  | App.Event.boot => App.boot net w
  | App.Event.login fd => App.loginSubmit net w fd
  | App.Event.adminLogin fd => App.adminLoginSubmit net w fd
  | App.Event.logout => App.logoutClick w
  | App.Event.api url options => (App.api net w url options).1

/-- The page after a sequence of events. -/
def App.run (net : Net) (w : World) (events : List App.Event) : World :=
  events.foldl (App.step net) w

/-! ## Example worlds and networks -/

/-- A page whose store holds the access token `A1` and the refresh token `R1`. -/
def worldWithTokens : World :=
  { localStorage := [("access", "A1"), ("refresh", "R1")] }

/-- A page whose store holds the access token `A1` and no refresh token. -/
def worldAccessOnly : World :=
  { localStorage := [("access", "A1")] }

/-- A network that answers the refresh call with `200 {access_token: "A2"}`
and every other request with a 401. -/
def netRefreshOk : Net := fun _ req =>
  if req.url = "/auth/refresh" then
    some { status := 200, body := Body.val { access_token := JsVal.str "A2" } }
  else some { status := 401 }

/-- A network that answers every request, the refresh call included, with a 401. -/
def netAlways401 : Net := fun _ _ => some { status := 401 }

/-- A network that answers the refresh call with `200 {}` (a payload without
`access_token`) and every other request with a 401. -/
def netRefreshWithoutToken : Net := fun _ req =>
  if req.url = "/auth/refresh" then some { status := 200, body := Body.val {} }
  else some { status := 401 }

/-- A bidder page: tokens stored, a non-admin user bound to team `T2`, the
team picker locked to `T2`. -/
def worldBidder : World :=
  { localStorage := [("access", "A1"), ("refresh", "R1")],
    CURRENT_USER := some { is_admin := false, team_id := JsVal.str "T2" },
    teamPicker := some { options := ["", "T2"], value := "T2", disabled := true } }

/-- A click on the bid button of the row of player `P9` whose bid input holds `v`. -/
def clickBidP9 (v : String) : App.BidClick :=
  { onBidButton := true, row := some { playerId := JsVal.str "P9", bidInput := some v } }

/-- A network that answers every request with `200 {ok: false, detail: "Insufficient budget"}`. -/
def netBidRejected : Net := fun _ _ =>
  some { status := 200,
         body := Body.val { ok := false, detail := JsVal.str "Insufficient budget" } }

/-- A page of a non-admin user bound to team `T1` whose team picker only has
the placeholder option (the team list has not been loaded, or lacks `T1`). -/
def worldPickerWithoutTeam : World :=
  { CURRENT_USER := some { is_admin := false, team_id := JsVal.str "T1" },
    teamPicker := some { options := [""], value := "", disabled := false } }

/-- A page of a non-admin user bound to team `T1` whose team picker lists `T1` and `T2`. -/
def worldPickerWithTeam : World :=
  { CURRENT_USER := some { is_admin := false, team_id := JsVal.str "T1" },
    teamPicker := some { options := ["", "T1", "T2"], value := "", disabled := false } }

/-- A network for the admin console that accepts every action: each
`/auction/...` request is answered `200 {ok: true}`, and `/players` and
`/teams` with arrays. -/
def netAdminAccepts : Net := fun _ req =>
  if req.url = "/players" then some { status := 200, body := Body.val { ids := some ["P9"] } }
  else if req.url = "/teams" then
    some { status := 200, body := Body.val { ids := some ["T1", "T2"] } }
  else some { status := 200, body := Body.val { ok := true } }

/-- A freshly loaded bidder page: every element of the document exists,
only the auth card is shown, nothing is stored. -/
def pageFresh : World :=
  { teamPicker := some { options := [""], value := "", disabled := false },
    authCard := some "", modeCard := some "none", playerCard := some "none",
    adminCard := some "none", appCard := some "none", logoutBtn := some "none",
    btnStart := some "", btnStop := some "", adminStartWrapper := some false,
    adminList := true }

/-- The freshly loaded bidder page with the tokens `A1` and `R1` in the store. -/
def pageWithTokens : World :=
  { pageFresh with localStorage := [("access", "A1"), ("refresh", "R1")] }

/-- A network on which the token `A1` is valid: `/me` returns the non-admin
user bound to team `T1`, `/teams` the teams `T1` and `T2`, `/auth/login` a
pair of tokens, every other request `200 {}`. -/
def netUserT1 : Net := fun _ req =>
  if req.url = "/me" then
    some { status := 200,
           body := Body.val { user := some { is_admin := false, team_id := JsVal.str "T1" } } }
  else if req.url = "/teams" then
    some { status := 200, body := Body.val { ids := some ["T1", "T2"] } }
  else if req.url = "/auth/login" then
    some { status := 200,
           body := Body.val { ok := true, access_token := JsVal.str "A1",
                              refresh_token := JsVal.str "R1" } }
  else some { status := 200, body := Body.val {} }

/-- The data of a login form. -/
def loginForm : Dict := [("username", "bidder1"), ("password", "secret")]

/-- A network on which a login succeeds and `/me` returns the non-admin user
bound to team `T1`, but `/auction/start` and the refresh call are answered
with a 401 (the session has expired by then); every other request gets
`200 {}`. -/
def netSessionExpires : Net := fun _ req =>
  if req.url = "/me" then
    some { status := 200,
           body := Body.val { user := some { is_admin := false, team_id := JsVal.str "T1" } } }
  else if req.url = "/auth/login" then
    some { status := 200,
           body := Body.val { ok := true, access_token := JsVal.str "A1",
                              refresh_token := JsVal.str "R1" } }
  else if req.url = "/auction/start" ∨ req.url = "/auth/refresh" then some { status := 401 }
  else some { status := 200, body := Body.val {} }

/-! ## Lemmas on plain objects -/

theorem Dict.get?_set_self (d : Dict) (k v : String) : (Dict.set d k v).get? k = some v := by
  induction d with
  | nil => simp [Dict.set, Dict.get?]
  | cons p t ih =>
    obtain ⟨k', v'⟩ := p
    by_cases h : k' = k
    · simp [Dict.set, Dict.get?, h]
    · simp [Dict.set, Dict.get?, h, ih]

theorem Dict.get?_set_of_ne (d : Dict) (k k' v : String) (h : k ≠ k') :
    (Dict.set d k v).get? k' = d.get? k' := by
  induction d with
  | nil => simp [Dict.set, Dict.get?, h]
  | cons p t ih =>
    obtain ⟨k1, v1⟩ := p
    by_cases h1 : k1 = k
    · subst h1
      simp [Dict.set, Dict.get?, h]
    · simp [Dict.set, Dict.get?, h1, ih]

theorem Dict.get?_erase_self (d : Dict) (k : String) : (Dict.erase d k).get? k = none := by
  induction d with
  | nil => simp [Dict.erase, Dict.get?]
  | cons p t ih =>
    obtain ⟨k1, v1⟩ := p
    by_cases h1 : k1 = k
    · simpa [Dict.erase, List.filter_cons, h1] using ih
    · simpa [Dict.erase, List.filter_cons, h1, Dict.get?] using ih

theorem Dict.get?_erase_of_ne (d : Dict) (k k' : String) (h : k ≠ k') :
    (Dict.erase d k).get? k' = d.get? k' := by
  induction d with
  | nil => simp [Dict.erase, Dict.get?]
  | cons p t ih =>
    obtain ⟨k1, v1⟩ := p
    by_cases h1 : k1 = k
    · subst h1
      simpa [Dict.erase, List.filter_cons, Dict.get?, h] using ih
    · by_cases h2 : k1 = k'
      · subst h2
        simp [Dict.erase, List.filter_cons, h1, Dict.get?]
      · simpa [Dict.erase, List.filter_cons, h1, Dict.get?, h2] using ih

theorem Dict.erase_idem (d : Dict) (k : String) : Dict.erase (Dict.erase d k) k = Dict.erase d k := by
  simp [Dict.erase, List.filter_filter]

theorem Dict.erase_comm (d : Dict) (k k' : String) :
    Dict.erase (Dict.erase d k) k' = Dict.erase (Dict.erase d k') k := by
  simp [Dict.erase, List.filter_filter, Bool.and_comm]

/-! ## The token store -/

theorem getAccess_setItem_access (w : World) (v : JsVal) :
    getAccess (setItem w "access" v) = JsVal.str v.toStr := by
  simp [getAccess, getItem, setItem, Dict.get?_set_self]

theorem getRefresh_setItem_access (w : World) (v : JsVal) :
    getRefresh (setItem w "access" v) = getRefresh w := by
  simp [getRefresh, getItem, setItem, Dict.get?_set_of_ne]

theorem getRefresh_setItem_refresh (w : World) (v : JsVal) :
    getRefresh (setItem w "refresh" v) = JsVal.str v.toStr := by
  simp [getRefresh, getItem, setItem, Dict.get?_set_self]

theorem getAccess_setItem_refresh (w : World) (v : JsVal) :
    getAccess (setItem w "refresh" v) = getAccess w := by
  simp [getAccess, getItem, setItem, Dict.get?_set_of_ne]

theorem JsVal.str_toStr_of_truthy (v : JsVal) (h : v.truthy = true) : JsVal.str v.toStr = v := by
  cases v <;> simp_all [JsVal.truthy, JsVal.toStr]

theorem getAccess_setTokens (w : World) (a r : JsVal) :
    getAccess (setTokens w a r) = (if a.truthy then a else getAccess w) := by
  by_cases ha : a.truthy = true <;> by_cases hr : r.truthy = true <;>
    simp [setTokens, ha, hr, getAccess_setItem_access, getAccess_setItem_refresh,
      JsVal.str_toStr_of_truthy]

theorem getRefresh_setTokens (w : World) (a r : JsVal) :
    getRefresh (setTokens w a r) = (if r.truthy then r else getRefresh w) := by
  by_cases ha : a.truthy = true <;> by_cases hr : r.truthy = true <;>
    simp [setTokens, ha, hr, getRefresh_setItem_access, getRefresh_setItem_refresh,
      JsVal.str_toStr_of_truthy]

theorem getRefresh_setTokens_null (w : World) (a : JsVal) :
    getRefresh (setTokens w a JsVal.null) = getRefresh w := by
  rw [getRefresh_setTokens]
  rfl

theorem getAccess_clearTokens (w : World) : getAccess (clearTokens w) = JsVal.null := by
  simp [clearTokens, removeItem, getAccess, getItem, Dict.get?_erase_of_ne, Dict.get?_erase_self]

theorem getRefresh_clearTokens (w : World) : getRefresh (clearTokens w) = JsVal.null := by
  simp [clearTokens, removeItem, getRefresh, getItem, Dict.get?_erase_self]

/-- C6. After `setTokens(a, r)`, `getAccess()` returns `a` when `a` is
non-empty and the previous access value otherwise; `getRefresh()` returns `r`
when `r` is non-empty and the previous refresh value otherwise; and
`setTokens(a, null)` leaves the stored refresh token as it was. -/
theorem setTokens_partial_update (w : World) (a r : JsVal) :
    getAccess (setTokens w a r) = (if a.truthy then a else getAccess w) ∧
    getRefresh (setTokens w a r) = (if r.truthy then r else getRefresh w) ∧
    getRefresh (setTokens w a JsVal.null) = getRefresh w :=
  ⟨getAccess_setTokens w a r, getRefresh_setTokens w a r, getRefresh_setTokens_null w a⟩

/-- C7. The function `clearTokens` is idempotent: clearing twice gives the
state that clearing once gives, and in that state `getAccess()` and
`getRefresh()` both return `null` (absent). -/
theorem clearTokens_idempotent (w : World) :
    clearTokens (clearTokens w) = clearTokens w ∧
    getAccess (clearTokens w) = JsVal.null ∧
    getRefresh (clearTokens w) = JsVal.null := by
  refine ⟨?_, getAccess_clearTokens w, getRefresh_clearTokens w⟩
  simp only [clearTokens, removeItem]
  rw [Dict.erase_comm (Dict.erase (Dict.erase w.localStorage "access") "refresh") "access" "refresh",
    Dict.erase_idem, Dict.erase_comm (Dict.erase w.localStorage "access") "refresh" "access",
    Dict.erase_idem]

/-! ## The request pipeline of `app.js` -/

theorem getRefresh_with_requests (w : World) (r : List Request) :
    getRefresh { w with requests := r } = getRefresh w := rfl

theorem getAccess_with_requests (w : World) (r : List Request) :
    getAccess { w with requests := r } = getAccess w := rfl

theorem retryRequest_eq (w : World) (url : String) (options : Options) (d : Payload) :
    retryRequest w url options d =
      { firstRequest w url options with
        headers := (firstRequest w url options).headers.set "Authorization"
          ("Bearer " ++ d.access_token.toStr) } := by
  simp [retryRequest, firstRequest, Request.of]

/-- The result of `api` in `app.js` when the first response is a 401 and the
refresh call answers `ok` with a payload. -/
theorem App.api_eq_of_refresh_ok (net : Net) (w : World) (url : String)
    (options : Options) (res rr : Response) (d : Payload)
    (h1 : net w.requests (firstRequest w url options) = some res)
    (h401 : res.status = 401)
    (href : (getRefresh w).truthy = true)
    (h2 : net (w.requests ++ [firstRequest w url options]) (refreshRequest w) = some rr)
    (hok : rr.ok = true)
    (hd : rr.body = Body.val d) :
    App.api net w url options =
      ({ setTokens w d.access_token JsVal.null with
          requests := w.requests ++ [firstRequest w url options, refreshRequest w,
            retryRequest w url options d] },
        net (w.requests ++ [firstRequest w url options, refreshRequest w])
          (retryRequest w url options d)) := by
  have hn : JsVal.null.truthy = false := rfl
  have hf : rr.body.fields = some d := by rw [hd]; rfl
  simp only [firstRequest, firstHeaders, refreshRequest, retryRequest, Request.of,
    Option.getD_some, Option.getD_none] at h1 h2 ⊢
  simp only [App.api, fetch, Request.of, getRefresh_with_requests, Option.getD_some,
    Option.getD_none]
  rw [h1]
  simp only [h401, getRefresh_with_requests, href, and_self, if_true]
  rw [h2]
  simp only [hok, if_true, hf]
  by_cases htok : d.access_token.truthy = true <;>
    simp [setTokens, htok, hn, setItem]

/-- C1. When the first response is a 401, a refresh token is stored and the
refresh call succeeds (`rr.ok`, with a payload carrying the new access token),
`api` issues exactly three requests in this order: the original request, one
`POST /auth/refresh` carrying the stored refresh token, and one retry of the
original request.  The retry carries `Authorization: Bearer <new access
token>`, the new access token is the one now stored, the stored refresh token
is unchanged, and `api` returns whatever the network answers to the retry,
without looking at its status. -/
theorem App.api_refresh_success_retries_once (net : Net) (w : World) (url : String)
    (options : Options) (res rr : Response) (d : Payload)
    (h1 : net w.requests (firstRequest w url options) = some res)
    (h401 : res.status = 401)
    (href : (getRefresh w).truthy = true)
    (h2 : net (w.requests ++ [firstRequest w url options]) (refreshRequest w) = some rr)
    (hok : rr.ok = true)
    (hd : rr.body = Body.val d)
    (htok : d.access_token.truthy = true) :
    (App.api net w url options).1.requests =
        w.requests ++ [firstRequest w url options, refreshRequest w,
          retryRequest w url options d] ∧
      retryRequest w url options d =
        { firstRequest w url options with
          headers := (firstRequest w url options).headers.set "Authorization"
            ("Bearer " ++ d.access_token.toStr) } ∧
      (retryRequest w url options d).headers.get? "Authorization" =
        some ("Bearer " ++ (getAccess (App.api net w url options).1).toStr) ∧
      getAccess (App.api net w url options).1 = d.access_token ∧
      getRefresh (App.api net w url options).1 = getRefresh w ∧
      (App.api net w url options).2 =
        net (w.requests ++ [firstRequest w url options, refreshRequest w])
          (retryRequest w url options d) := by
  have key := App.api_eq_of_refresh_ok net w url options res rr d h1 h401 href h2 hok hd
  have hacc : getAccess (App.api net w url options).1 = d.access_token := by
    rw [key]
    have := getAccess_setTokens w d.access_token JsVal.null
    simpa [htok, getAccess, getItem] using this
  refine ⟨?_, retryRequest_eq w url options d, ?_, hacc, ?_, ?_⟩
  · rw [key]
  · rw [hacc]
    simp [retryRequest, Request.of, Dict.get?_set_self]
  · rw [key]
    exact getRefresh_setTokens_null w d.access_token
  · rw [key]

theorem App.api_refresh_success_retries_once_witness :
    (App.api netRefreshOk worldWithTokens "/me" {}).1.requests =
        [{ url := "/me", method := "GET", headers := [("Authorization", "Bearer A1")],
            body := ReqBody.none },
          { url := "/auth/refresh", method := "POST", headers := [],
            body := ReqBody.form [("refresh_token", "R1")] },
          { url := "/me", method := "GET", headers := [("Authorization", "Bearer A2")],
            body := ReqBody.none }] ∧
      getAccess (App.api netRefreshOk worldWithTokens "/me" {}).1 = JsVal.str "A2" ∧
      getRefresh (App.api netRefreshOk worldWithTokens "/me" {}).1 = JsVal.str "R1" ∧
      (App.api netRefreshOk worldWithTokens "/me" {}).2 = some { status := 401 } := by
  have h := App.api_refresh_success_retries_once netRefreshOk worldWithTokens "/me" {}
    { status := 401 } { status := 200, body := Body.val { access_token := JsVal.str "A2" } }
    { access_token := JsVal.str "A2" } (by decide) (by decide) (by decide) (by decide)
    (by decide) (by decide) (by decide)
  exact ⟨h.1, h.2.2.2.1, h.2.2.2.2.1, h.2.2.2.2.2⟩

/-- The result of `api` in `app.js` when the first response is a 401 and the
refresh call answers with a status that is not `ok`. -/
theorem App.api_eq_of_refresh_failed (net : Net) (w : World) (url : String)
    (options : Options) (res rr : Response)
    (h1 : net w.requests (firstRequest w url options) = some res)
    (h401 : res.status = 401)
    (href : (getRefresh w).truthy = true)
    (h2 : net (w.requests ++ [firstRequest w url options]) (refreshRequest w) = some rr)
    (hfail : rr.ok = false) :
    App.api net w url options =
      (clearTokens { w with
          requests := w.requests ++ [firstRequest w url options, refreshRequest w] },
        some res) := by
  simp only [firstRequest, firstHeaders, refreshRequest, Request.of,
    Option.getD_some, Option.getD_none] at h1 h2 ⊢
  simp only [App.api, fetch, Request.of, Option.getD_some, Option.getD_none]
  rw [h1]
  simp only [h401, getRefresh_with_requests, href, and_self, if_true]
  rw [h2]
  simp [hfail]

/-- The result of `api` in `app.js` when the first response is not a 401 or
no refresh token is stored. -/
theorem App.api_eq_of_no_refresh (net : Net) (w : World) (url : String)
    (options : Options) (res : Response)
    (h1 : net w.requests (firstRequest w url options) = some res)
    (hno : ¬ (res.status = 401 ∧ (getRefresh w).truthy = true)) :
    App.api net w url options =
      ({ w with requests := w.requests ++ [firstRequest w url options] }, some res) := by
  simp only [firstRequest, firstHeaders, Request.of, Option.getD_some, Option.getD_none] at h1 ⊢
  simp only [App.api, fetch, Request.of, Option.getD_some, Option.getD_none]
  rw [h1]
  simp only [getRefresh_with_requests, hno, if_false]

/-- C2. When the first response is a 401, a refresh token is stored and the
refresh call fails (`rr.ok` is false), then after `api` returns both tokens
are absent from the store, no retry was issued (the original request and the
refresh call are the only requests), and the value returned is the original
401 response. -/
theorem App.api_refresh_failure_clears_tokens (net : Net) (w : World) (url : String)
    (options : Options) (res rr : Response)
    (h1 : net w.requests (firstRequest w url options) = some res)
    (h401 : res.status = 401)
    (href : (getRefresh w).truthy = true)
    (h2 : net (w.requests ++ [firstRequest w url options]) (refreshRequest w) = some rr)
    (hfail : rr.ok = false) :
    getAccess (App.api net w url options).1 = JsVal.null ∧
      getRefresh (App.api net w url options).1 = JsVal.null ∧
      (App.api net w url options).1.requests =
        w.requests ++ [firstRequest w url options, refreshRequest w] ∧
      (App.api net w url options).2 = some res := by
  rw [App.api_eq_of_refresh_failed net w url options res rr h1 h401 href h2 hfail]
  exact ⟨getAccess_clearTokens _, getRefresh_clearTokens _, rfl, rfl⟩

theorem App.api_refresh_failure_clears_tokens_witness :
    getAccess (App.api netAlways401 worldWithTokens "/me" {}).1 = JsVal.null ∧
      getRefresh (App.api netAlways401 worldWithTokens "/me" {}).1 = JsVal.null ∧
      (App.api netAlways401 worldWithTokens "/me" {}).1.requests =
        [{ url := "/me", method := "GET", headers := [("Authorization", "Bearer A1")],
            body := ReqBody.none },
          { url := "/auth/refresh", method := "POST", headers := [],
            body := ReqBody.form [("refresh_token", "R1")] }] ∧
      (App.api netAlways401 worldWithTokens "/me" {}).2 = some { status := 401 } :=
  App.api_refresh_failure_clears_tokens netAlways401 worldWithTokens "/me" {}
    { status := 401 } { status := 401 } (by decide) (by decide) (by decide) (by decide)
    (by decide)

/-- C3. When the first response is a 401 and no refresh token is stored,
`api` issues exactly one request (no refresh call, no retry), leaves the
token store unchanged, and returns that 401 response unchanged. -/
theorem App.api_unauthorized_without_refresh_token (net : Net) (w : World) (url : String)
    (options : Options) (res : Response)
    (h1 : net w.requests (firstRequest w url options) = some res)
    (h401 : res.status = 401)
    (hno : (getRefresh w).truthy = false) :
    (App.api net w url options).1.requests = w.requests ++ [firstRequest w url options] ∧
      (App.api net w url options).1.localStorage = w.localStorage ∧
      (App.api net w url options).2 = some res ∧
      (App.api net w url options).2.map Response.status = some 401 := by
  rw [App.api_eq_of_no_refresh net w url options res h1 (by simp [hno])]
  exact ⟨rfl, rfl, rfl, by simp [h401]⟩

theorem App.api_unauthorized_without_refresh_token_witness :
    (App.api netAlways401 worldAccessOnly "/me" {}).1.requests =
        [{ url := "/me", method := "GET", headers := [("Authorization", "Bearer A1")],
            body := ReqBody.none }] ∧
      (App.api netAlways401 worldAccessOnly "/me" {}).1.localStorage = [("access", "A1")] ∧
      (App.api netAlways401 worldAccessOnly "/me" {}).2 = some { status := 401 } ∧
      (App.api netAlways401 worldAccessOnly "/me" {}).2.map Response.status = some 401 :=
  App.api_unauthorized_without_refresh_token netAlways401 worldAccessOnly "/me" {}
    { status := 401 } (by decide) (by decide) (by decide)

/-! ## Headers -/

theorem Dict.assign_nil (t : Dict) : Dict.assign t [] = t := rfl

theorem Dict.assign_singleton (t : Dict) (k v : String) :
    Dict.assign t [(k, v)] = Dict.set t k v := rfl

theorem Dict.get?_eq_none_of_not_mem (d : Dict) (k : String)
    (h : k ∉ d.map Prod.fst) : Dict.get? d k = none := by
  induction d with
  | nil => rfl
  | cons p t ih =>
    obtain ⟨k1, v1⟩ := p
    simp only [List.map_cons, List.mem_cons, not_or] at h
    have hne : ¬ k1 = k := fun e => h.1 e.symm
    simp [Dict.get?, hne, ih h.2]

/-- Reading a property of `Object.assign(t, src)` for an object `src` (distinct keys). -/
theorem Dict.get?_assign (src : Dict) (hnd : (src.map Prod.fst).Nodup) (t : Dict) (k : String) :
    (Dict.assign t src).get? k =
      match src.get? k with
      | some v => some v
      | none => t.get? k := by
  induction src generalizing t with
  | nil => rfl
  | cons p s ih =>
    obtain ⟨a, b⟩ := p
    simp only [List.map_cons, List.nodup_cons] at hnd
    have step : Dict.assign t ((a, b) :: s) = Dict.assign (Dict.set t a b) s := rfl
    rw [step, ih hnd.2]
    by_cases hak : a = k
    · subst hak
      simp [Dict.get?, Dict.get?_eq_none_of_not_mem s a hnd.1, Dict.get?_set_self]
    · simp [Dict.get?, hak, Dict.get?_set_of_ne t a k b hak]

theorem bearer_get?_of_ne (access : JsVal) (t : Dict) (k : String) (hk : k ≠ "Authorization") :
    (Dict.assign t (bearer access)).get? k = t.get? k := by
  unfold bearer
  split
  · rw [Dict.assign_singleton, Dict.get?_set_of_ne _ _ _ _ (Ne.symm hk)]
  · rfl

/-- The first request of `api` carries the bearer token when an access token is stored. -/
theorem firstRequest_authorization (w : World) (url : String) (options : Options)
    (hacc : (getAccess w).truthy = true) :
    (firstRequest w url options).headers.get? "Authorization" =
      some ("Bearer " ++ (getAccess w).toStr) := by
  simp [firstRequest, firstHeaders, Request.of, bearer, hacc, Dict.assign_singleton,
    Dict.get?_set_self]

/-- Every header of the caller other than `Authorization` is in the first request. -/
theorem firstRequest_keeps_header (w : World) (url : String) (options : Options)
    (hdrs : Dict) (k v : String)
    (hh : options.headers = some hdrs) (hnd : (hdrs.map Prod.fst).Nodup)
    (hkv : hdrs.get? k = some v) (hk : k ≠ "Authorization") :
    (firstRequest w url options).headers.get? k = some v := by
  simp only [firstRequest, firstHeaders, Request.of, Option.getD_some, hh]
  rw [bearer_get?_of_ne _ _ _ hk, Dict.get?_assign hdrs hnd [] k, hkv]

/-- Every header of the caller other than `Authorization` is in the retry. -/
theorem retryRequest_keeps_header (w : World) (url : String) (options : Options)
    (d : Payload) (hdrs : Dict) (k v : String)
    (hh : options.headers = some hdrs) (hnd : (hdrs.map Prod.fst).Nodup)
    (hkv : hdrs.get? k = some v) (hk : k ≠ "Authorization") :
    (retryRequest w url options d).headers.get? k = some v := by
  rw [retryRequest_eq]
  simp only []
  rw [Dict.get?_set_of_ne _ _ _ _ (Ne.symm hk)]
  exact firstRequest_keeps_header w url options hdrs k v hh hnd hkv hk

theorem Admin.api_eq (net : Net) (w : World) (url : String) (options : Options) :
    Admin.api net w url options =
      ({ w with requests := w.requests ++ [firstRequest w url options] },
        net w.requests (firstRequest w url options)) := rfl

/-- The requests that `api` of `app.js` issues: the first request, then
nothing, or the refresh call, or the refresh call and the retry; apart from
the requests and the store nothing in the page changes. -/
theorem App.api_shape (net : Net) (w : World) (url : String) (options : Options) :
    ∃ (ls : Dict) (rest : List Request),
      (App.api net w url options).1 =
        { w with localStorage := ls,
                 requests := w.requests ++ firstRequest w url options :: rest } ∧
      (rest = [] ∨ rest = [refreshRequest w] ∨
        ∃ d, rest = [refreshRequest w, retryRequest w url options d]) := by
  cases h1 : net w.requests (firstRequest w url options) with
  | none =>
    refine ⟨w.localStorage, [], ?_, Or.inl rfl⟩
    simp only [firstRequest, firstHeaders, Request.of, Option.getD_some] at h1 ⊢
    simp only [App.api, fetch, Request.of, Option.getD_some]
    rw [h1]
  | some res =>
    by_cases hc : res.status = 401 ∧ (getRefresh w).truthy = true
    · cases h2 : net (w.requests ++ [firstRequest w url options]) (refreshRequest w) with
      | none =>
        refine ⟨w.localStorage, [refreshRequest w], ?_, Or.inr (Or.inl rfl)⟩
        simp only [firstRequest, firstHeaders, refreshRequest, Request.of,
          Option.getD_some, Option.getD_none] at h1 h2 ⊢
        simp only [App.api, fetch, Request.of, Option.getD_some, Option.getD_none]
        rw [h1]
        simp only [hc.1, getRefresh_with_requests, hc.2, and_self, if_true]
        rw [h2]
        simp
      | some rr =>
        by_cases hok : rr.ok = true
        · cases hb : rr.body with
          | val d =>
            refine ⟨(setTokens w d.access_token JsVal.null).localStorage,
              [refreshRequest w, retryRequest w url options d], ?_, Or.inr (Or.inr ⟨d, rfl⟩)⟩
            rw [App.api_eq_of_refresh_ok net w url options res rr d h1 hc.1 hc.2 h2 hok hb]
            have hn : JsVal.null.truthy = false := rfl
            by_cases htok : d.access_token.truthy = true <;>
              simp [setTokens, htok, setItem, hn]
          | unreadable =>
            refine ⟨w.localStorage, [refreshRequest w], ?_, Or.inr (Or.inl rfl)⟩
            simp only [firstRequest, firstHeaders, refreshRequest, Request.of,
              Option.getD_some, Option.getD_none] at h1 h2 ⊢
            simp only [App.api, fetch, Request.of, Option.getD_some, Option.getD_none]
            rw [h1]
            simp only [hc.1, getRefresh_with_requests, hc.2, and_self, if_true]
            rw [h2]
            simp [hok, hb, Body.fields]
          | null =>
            refine ⟨w.localStorage, [refreshRequest w], ?_, Or.inr (Or.inl rfl)⟩
            simp only [firstRequest, firstHeaders, refreshRequest, Request.of,
              Option.getD_some, Option.getD_none] at h1 h2 ⊢
            simp only [App.api, fetch, Request.of, Option.getD_some, Option.getD_none]
            rw [h1]
            simp only [hc.1, getRefresh_with_requests, hc.2, and_self, if_true]
            rw [h2]
            simp [hok, hb, Body.fields]
        · have hfail : rr.ok = false := by simpa using hok
          refine ⟨(clearTokens w).localStorage, [refreshRequest w], ?_, Or.inr (Or.inl rfl)⟩
          rw [App.api_eq_of_refresh_failed net w url options res rr h1 hc.1 hc.2 h2 hfail]
          simp [clearTokens, removeItem]
    · refine ⟨w.localStorage, [], ?_, Or.inl rfl⟩
      rw [App.api_eq_of_no_refresh net w url options res h1 hc]

/-- C4 (the code at the failing input). The store holds the access token
`A1` and the refresh token `R1`, the first response is a 401 and the refresh
call answers `200 {}`.  The retry is then the `fetch` issued in a world whose
store still holds the access token `A1`, with the header
`Authorization: Bearer undefined`. -/
theorem App.api_retry_sends_bearer_undefined :
    App.api netRefreshWithoutToken worldWithTokens "/me" {} =
        fetch netRefreshWithoutToken
          { worldWithTokens with
            requests :=
              [{ url := "/me", method := "GET", headers := [("Authorization", "Bearer A1")],
                  body := ReqBody.none },
                { url := "/auth/refresh", method := "POST", headers := [],
                  body := ReqBody.form [("refresh_token", "R1")] }] }
          "/me" { headers := some [("Authorization", "Bearer undefined")] } ∧
      getAccess (App.api netRefreshWithoutToken worldWithTokens "/me" {}).1 = JsVal.str "A1" ∧
      ((App.api netRefreshWithoutToken worldWithTokens "/me" {}).1.requests.map
          (fun r => (r.url, r.headers.get? "Authorization"))) =
        [("/me", some "Bearer A1"), ("/auth/refresh", none), ("/me", some "Bearer undefined")] := by
  decide

/-- C5 (counterexample). A caller that supplies its own `Authorization`
header while an access token is stored does not find its value in the request:
both `api` functions send `Bearer A1` instead of the caller's `Basic abc`. -/
theorem api_overwrites_caller_authorization :
    (App.api netAlways401 worldAccessOnly "/teams"
        { headers := some [("Authorization", "Basic abc")] }).1.requests =
      [{ url := "/teams", method := "GET", headers := [("Authorization", "Bearer A1")],
          body := ReqBody.none }] ∧
    (Admin.api netAlways401 worldAccessOnly "/teams"
        { headers := some [("Authorization", "Basic abc")] }).1.requests =
      [{ url := "/teams", method := "GET", headers := [("Authorization", "Bearer A1")],
          body := ReqBody.none }] := by
  decide

/-- C5 (amended). For every header that the caller supplies in
`options.headers` under a name other than `Authorization`, the request that
`api` of `admin.js` issues, the first request that `api` of `app.js` issues
and its retry carry that header with the caller's value; the only other
request of `api` is the refresh call. -/
theorem api_keeps_caller_headers_except_authorization (net : Net) (w : World) (url : String)
    (options : Options) (hdrs : Dict) (k v : String)
    (hh : options.headers = some hdrs) (hnd : (hdrs.map Prod.fst).Nodup)
    (hkv : hdrs.get? k = some v) (hk : k ≠ "Authorization") :
    (firstRequest w url options).headers.get? k = some v ∧
      (Admin.api net w url options).1.requests = w.requests ++ [firstRequest w url options] ∧
      ∃ rest, (App.api net w url options).1.requests =
          w.requests ++ firstRequest w url options :: rest ∧
        ∀ req ∈ rest, req = refreshRequest w ∨
          ∃ d, req = retryRequest w url options d ∧ req.headers.get? k = some v := by
  refine ⟨firstRequest_keeps_header w url options hdrs k v hh hnd hkv hk, rfl, ?_⟩
  obtain ⟨ls, rest, hw, hrest⟩ := App.api_shape net w url options
  refine ⟨rest, by rw [hw], ?_⟩
  intro req hreq
  rcases hrest with h | h | ⟨d, h⟩
  · subst h
    simp at hreq
  · subst h
    simp only [List.mem_singleton] at hreq
    exact Or.inl hreq
  · subst h
    simp only [List.mem_cons, List.mem_singleton, List.mem_nil_iff, or_false] at hreq
    rcases hreq with h | h
    · exact Or.inl h
    · refine Or.inr ⟨d, h, ?_⟩
      rw [h]
      exact retryRequest_keeps_header w url options d hdrs k v hh hnd hkv hk

theorem api_keeps_caller_headers_except_authorization_witness :
    (firstRequest worldWithTokens "/auction/bid"
        { headers := some [("Content-Type", "application/json")] }).headers.get?
          "Content-Type" = some "application/json" ∧
      (Admin.api netRefreshOk worldWithTokens "/auction/bid"
          { headers := some [("Content-Type", "application/json")] }).1.requests =
        worldWithTokens.requests ++ [firstRequest worldWithTokens "/auction/bid"
          { headers := some [("Content-Type", "application/json")] }] ∧
      ∃ rest, (App.api netRefreshOk worldWithTokens "/auction/bid"
            { headers := some [("Content-Type", "application/json")] }).1.requests =
          worldWithTokens.requests ++ firstRequest worldWithTokens "/auction/bid"
            { headers := some [("Content-Type", "application/json")] } :: rest ∧
        ∀ req ∈ rest, req = refreshRequest worldWithTokens ∨
          ∃ d, req = retryRequest worldWithTokens "/auction/bid"
              { headers := some [("Content-Type", "application/json")] } d ∧
            req.headers.get? "Content-Type" = some "application/json" :=
  api_keeps_caller_headers_except_authorization netRefreshOk worldWithTokens "/auction/bid"
    { headers := some [("Content-Type", "application/json")] }
    [("Content-Type", "application/json")] "Content-Type" "application/json"
    rfl (by decide) (by decide) (by decide)

/-! ## Bid submission -/

theorem numberOrZero_invalid (v : String)
    (hbad : v = "" ∨ jsNumber v = JsNum.nan ∨ (jsNumber v).leZero = true) :
    (!(numberOrZero (JsVal.str v)).truthy || (numberOrZero (JsVal.str v)).leZero) = true := by
  by_cases hv : v = ""
  · subst hv
    decide
  · have ht : (JsVal.str v).truthy = true := by simp [JsVal.truthy, hv]
    have hn : numberOrZero (JsVal.str v) = jsNumber v := by
      simp [numberOrZero, ht, JsVal.toStr]
    rw [hn]
    rcases hbad with h | h | h
    · exact absurd h hv
    · rw [h]
      rfl
    · rw [h]
      simp

/-- C8. In the bid click handler of `app.js`, when the value of the row's bid
input is empty, non-numeric, zero or negative, the handler issues no network
request; and when it gets as far as the bid amount (the click is on a bid
button, a user is logged in, the row has a player id) it shows the message
"Enter a valid bid amount." and does nothing else. -/
theorem App.bidClick_rejects_invalid_amount (net : Net) (w : World) (e : BidClick)
    (row : Row) (v : String)
    (hrow : e.row = some row) (hv : row.bidInput = some v)
    (hbad : v = "" ∨ jsNumber v = JsNum.nan ∨ (jsNumber v).leZero = true) :
    (App.bidClick net w e).requests = w.requests ∧
      (e.onBidButton = true → w.CURRENT_USER.isSome = true → row.playerId.truthy = true →
        App.bidClick net w e = alert w "Enter a valid bid amount.") := by
  have hamt : (!(App.bidAmount row).truthy || (App.bidAmount row).leZero) = true := by
    simp only [App.bidAmount, hv]
    exact numberOrZero_invalid v hbad
  constructor
  · unfold App.bidClick
    by_cases hb : e.onBidButton = true
    · cases hu : w.CURRENT_USER with
      | none => simp [hb, alert]
      | some user =>
        by_cases hp : row.playerId.truthy = true
        · simp only [hb, hrow, hp, hamt]
          simp [alert]
        · simp [hb, hrow, hp, alert]
    · simp [hb]
  · intro hb hu hp
    obtain ⟨user, hu⟩ := Option.isSome_iff_exists.mp hu
    unfold App.bidClick
    simp only [hb, hu, hrow, hp, hamt]
    simp

theorem App.bidClick_rejects_invalid_amount_witness :
    (App.bidClick netBidRejected worldBidder (clickBidP9 "abc")).requests =
        worldBidder.requests ∧
      App.bidClick netBidRejected worldBidder (clickBidP9 "abc") =
        alert worldBidder "Enter a valid bid amount." := by
  have h := App.bidClick_rejects_invalid_amount netBidRejected worldBidder (clickBidP9 "abc")
    { playerId := JsVal.str "P9", bidInput := some "abc" } "abc" rfl rfl
    (Or.inr (Or.inl (by decide)))
  exact ⟨h.1, h.2 rfl rfl rfl⟩

/-- C9 (the code at the failing input). With the value `-5` in the bid input,
`placeBid` of `admin.js` shows no validation message and sends the bid request
with `bid_amount: -5`; the bid handler of `app.js` rejects the same value
locally. -/
theorem Admin.placeBid_sends_negative_amount :
    Admin.placeBid netAlways401 worldWithTokens "P9" "T2" "-5" =
        { worldWithTokens with
          requests :=
            [{ url := "/auction/bid", method := "POST",
                headers := [("Content-Type", "application/json"),
                  ("Authorization", "Bearer A1")],
                body := ReqBody.bidJson "P9" "T2" (some (JsNum.fin true 5 0)) }] } ∧
      (Admin.placeBid netAlways401 worldWithTokens "P9" "T2" "-5").alerts = [] ∧
      App.bidClick netAlways401 worldBidder (clickBidP9 "-5") =
        alert worldBidder "Enter a valid bid amount." := by
  decide!

theorem App.loadTeams_shape (net : Net) (w : World) :
    ∃ (ls : Dict) (tp : Option Select) (rest : List Request),
      App.loadTeams net w =
        { w with localStorage := ls, teamPicker := tp,
                 requests := w.requests ++ firstRequest w "/teams" {} :: rest } := by
  obtain ⟨ls, rest, hw, -⟩ := App.api_shape net w "/teams" {}
  unfold App.loadTeams
  rcases hapi : App.api net w "/teams" {} with ⟨w1, o⟩
  rw [hapi] at hw
  simp only at hw
  subst hw
  cases o with
  | none => exact ⟨ls, w.teamPicker, rest, rfl⟩
  | some r =>
    simp only []
    cases hb : r.body with
    | unreadable => exact ⟨ls, w.teamPicker, rest, rfl⟩
    | null =>
      cases htp : w.teamPicker with
      | none => exact ⟨ls, none, rest, by simp [htp]⟩
      | some sel => exact ⟨ls, _, rest, by simp [htp, Body.fields]; rfl⟩
    | val p =>
      cases htp : w.teamPicker with
      | none => exact ⟨ls, none, rest, by simp [htp]⟩
      | some sel =>
        cases hids : p.ids with
        | none => exact ⟨ls, _, rest, by simp [htp, Body.fields, hids]; rfl⟩
        | some ids => exact ⟨ls, _, rest, by simp [htp, Body.fields, hids]; rfl⟩

theorem App.applyTeamLock_shape (w : World) :
    ∃ tp : Option Select, App.applyTeamLock w = { w with teamPicker := tp } := by
  unfold App.applyTeamLock
  cases htp : w.teamPicker with
  | none => exact ⟨none, by simp [← htp]⟩
  | some sel =>
    cases hu : w.CURRENT_USER with
    | none => exact ⟨_, rfl⟩
    | some user =>
      by_cases hc : (!user.is_admin && user.team_id.truthy) = true
      · exact ⟨some { sel.setValue user.team_id.toStr with disabled := true },
          by simp only [hc, if_true]⟩
      · exact ⟨some { sel with disabled := false }, by simp only [hc]; rfl⟩

/-- The three refetches issue, in this order, `GET /auction/status`, the
team list request through `api` (with whatever refresh and retry it needs)
and `GET /players/`; no message is shown. -/
theorem App.refetchAfterBid_requests (net : Net) (w : World) :
    (App.refetchAfterBid net w).alerts = w.alerts ∧
      ∃ mid, (App.refetchAfterBid net w).requests =
        w.requests ++ Request.of "/auction/status" {} ::
          firstRequest w "/teams" {} :: (mid ++ [Request.of "/players/" {}]) := by
  obtain ⟨ls, tp, rest, ht⟩ := App.loadTeams_shape net (App.loadStatus net w)
  obtain ⟨tp2, hl⟩ := App.applyTeamLock_shape (App.loadTeams net (App.loadStatus net w))
  simp only [App.refetchAfterBid, App.loadPlayers, fetch]
  rw [hl, ht]
  refine ⟨rfl, rest, ?_⟩
  simp [App.loadStatus, fetch, firstRequest, firstHeaders, getAccess, getItem]

/-- C10. In the bid handler of `app.js`, once the bid request has been
answered with a response `res`: the bid is accepted exactly when `res.ok`
holds and the payload's `ok` flag is set.  When accepted, the success message
is shown and the status indicator, the team list and the player list are each
refetched (`GET /auction/status`, the `/teams` request of `api`,
`GET /players/`).  When not accepted, the user is shown the payload's
`detail` if non-empty, else its `message` if non-empty, else "Bid failed", and
no request follows; a response without a JSON payload is not accepted either
and no request follows. -/
theorem App.bidClick_accepted_iff_ok (net : Net) (w : World) (e : App.BidClick)
    (user : User) (row : App.Row) (w1 : World) (res : Response)
    (hbtn : e.onBidButton = true) (huser : w.CURRENT_USER = some user)
    (hrow : e.row = some row) (hpid : row.playerId.truthy = true)
    (hamt : (App.bidAmount row).truthy = true) (hpos : (App.bidAmount row).leZero = false)
    (hteam : (App.resolveTeam w user).truthy = true)
    (hapi : App.api net w "/auction/bid"
      (App.bidOptions row.playerId (App.resolveTeam w user) (App.bidAmount row)) =
        (w1, some res)) :
    (∀ data, res.body = Body.val data → res.ok = true → data.ok = true →
        App.bidClick net w e = App.refetchAfterBid net (alert w1 "Bid placed successfully!") ∧
        (App.bidClick net w e).alerts = w1.alerts ++ ["Bid placed successfully!"] ∧
        ∃ new, (App.bidClick net w e).requests = w1.requests ++ new ∧
          Request.of "/auction/status" {} ∈ new ∧
          firstRequest w1 "/teams" {} ∈ new ∧
          Request.of "/players/" {} ∈ new) ∧
      (∀ data, res.body = Body.val data → (res.ok = false ∨ data.ok = false) →
        App.bidClick net w e =
          alert w1 ((data.detail.or data.message).or (JsVal.str "Bid failed")).toStr ∧
        (App.bidClick net w e).requests = w1.requests) ∧
      (res.body.fields = none →
        App.bidClick net w e = alert w1 "Error placing bid." ∧
        (App.bidClick net w e).requests = w1.requests) := by
  have hguard : (!(App.bidAmount row).truthy || (App.bidAmount row).leZero) = false := by
    simp [hamt, hpos]
  have hstep : App.bidClick net w e =
      match res.body.fields with
      | none => alert w1 "Error placing bid."
      | some data =>
        if (!res.ok || !data.ok) = true then
          alert w1 ((data.detail.or data.message).or (JsVal.str "Bid failed")).toStr
        else App.refetchAfterBid net (alert w1 "Bid placed successfully!") := by
    unfold App.bidClick
    simp only [hbtn, huser, hrow, hpid, hguard, hteam, hapi]
    simp
  refine ⟨?_, ?_, ?_⟩
  · intro data hb hok hdok
    have hacc : App.bidClick net w e =
        App.refetchAfterBid net (alert w1 "Bid placed successfully!") := by
      rw [hstep, hb]
      simp [Body.fields, hok, hdok]
    obtain ⟨ha, mid, hm⟩ := App.refetchAfterBid_requests net (alert w1 "Bid placed successfully!")
    refine ⟨hacc, ?_, Request.of "/auction/status" {} ::
      firstRequest w1 "/teams" {} :: (mid ++ [Request.of "/players/" {}]), ?_, ?_, ?_, ?_⟩
    · rw [hacc, ha]
      rfl
    · rw [hacc, hm]
      rfl
    · simp
    · simp
    · simp
  · intro data hb hno
    have hrej : App.bidClick net w e =
        alert w1 ((data.detail.or data.message).or (JsVal.str "Bid failed")).toStr := by
      rw [hstep, hb]
      rcases hno with h | h <;> simp [Body.fields, h]
    exact ⟨hrej, by rw [hrej]; rfl⟩
  · intro hnone
    have herr : App.bidClick net w e = alert w1 "Error placing bid." := by
      rw [hstep, hnone]
    exact ⟨herr, by rw [herr]; rfl⟩

theorem App.bidClick_accepted_iff_ok_witness :
    App.bidClick netBidRejected worldBidder (clickBidP9 "500") =
        alert
          { worldBidder with
            requests :=
              [{ url := "/auction/bid", method := "POST",
                  headers := [("Content-Type", "application/json"),
                    ("Authorization", "Bearer A1")],
                  body := ReqBody.bidJson "P9" "T2" (some (JsNum.fin false 125 2)) }] }
          "Insufficient budget" ∧
      (App.bidClick netBidRejected worldBidder (clickBidP9 "500")).requests =
        [{ url := "/auction/bid", method := "POST",
            headers := [("Content-Type", "application/json"),
              ("Authorization", "Bearer A1")],
            body := ReqBody.bidJson "P9" "T2" (some (JsNum.fin false 125 2)) }] :=
  (App.bidClick_accepted_iff_ok netBidRejected worldBidder (clickBidP9 "500")
    { is_admin := false, team_id := JsVal.str "T2" }
    { playerId := JsVal.str "P9", bidInput := some "500" }
    { worldBidder with
      requests :=
        [{ url := "/auction/bid", method := "POST",
            headers := [("Content-Type", "application/json"),
              ("Authorization", "Bearer A1")],
            body := ReqBody.bidJson "P9" "T2" (some (JsNum.fin false 125 2)) }] }
    { status := 200,
      body := Body.val { ok := false, detail := JsVal.str "Insufficient budget" } }
    rfl rfl rfl (by decide) (by decide!) (by decide!) (by decide) (by decide!)).2.1
    { ok := false, detail := JsVal.str "Insufficient budget" } rfl (Or.inr rfl)

/-! ## Team lock -/

/-- C11 (counterexample). The user is a non-admin bound to team `T1`, but the
team picker has no option with the value `T1`: after `applyTeamLock` the
picker is disabled and its value is empty, not `T1`. -/
theorem App.applyTeamLock_value_empty_without_option :
    (App.applyTeamLock worldPickerWithoutTeam).teamPicker =
        some { options := [""], value := "", disabled := true } ∧
      ((App.applyTeamLock worldPickerWithoutTeam).teamPicker.map Select.value) ≠ some "T1" := by
  decide

/-- C11 (amended). For every `CURRENT_USER` and every state of the team
picker: if `CURRENT_USER` is set with `is_admin` false and a non-empty
`team_id` `V`, then after `applyTeamLock` the picker is disabled and its value
is `V` when the picker has an option with the value `V`, and empty otherwise;
if `CURRENT_USER` is null, an admin, or has an empty `team_id`, the picker is
enabled and its value is unchanged.  Nothing but the picker changes. -/
theorem App.applyTeamLock_locks_bound_team (w : World) (sel : Select)
    (hsel : w.teamPicker = some sel) :
    (∀ user, w.CURRENT_USER = some user → user.is_admin = false →
        user.team_id.truthy = true →
        App.applyTeamLock w =
          { w with
            teamPicker := some { sel with
              value := if user.team_id.toStr ∈ sel.options then user.team_id.toStr else "",
              disabled := true } }) ∧
      ((w.CURRENT_USER = none ∨
          ∃ user, w.CURRENT_USER = some user ∧
            (user.is_admin = true ∨ user.team_id.truthy = false)) →
        App.applyTeamLock w = { w with teamPicker := some { sel with disabled := false } }) := by
  constructor
  · intro user hu hadm htid
    simp [App.applyTeamLock, hsel, hu, hadm, htid, Select.setValue]
  · intro h
    rcases h with h | ⟨user, hu, h⟩
    · simp [App.applyTeamLock, hsel, h]
    · rcases h with h | h <;> simp [App.applyTeamLock, hsel, hu, h]

theorem App.applyTeamLock_locks_bound_team_witness :
    App.applyTeamLock worldPickerWithTeam =
      { worldPickerWithTeam with
        teamPicker := some { options := ["", "T1", "T2"], value := "T1", disabled := true } } :=
  (App.applyTeamLock_locks_bound_team worldPickerWithTeam
    { options := ["", "T1", "T2"], value := "", disabled := false } rfl).1
    { is_admin := false, team_id := JsVal.str "T1" } rfl rfl rfl

/-! ## The admin console -/

/-- The result of `api` in `app.js` when `fetch` rejects the first request. -/
theorem App.api_eq_of_rejected (net : Net) (w : World) (url : String) (options : Options)
    (h1 : net w.requests (firstRequest w url options) = none) :
    App.api net w url options =
      ({ w with requests := w.requests ++ [firstRequest w url options] }, none) := by
  simp only [firstRequest, firstHeaders, Request.of, Option.getD_some] at h1 ⊢
  simp only [App.api, fetch, Request.of, Option.getD_some]
  rw [h1]

/-- C17 (counterexample). With the tokens `A1` and `R1` stored and a 401 as
first response, `api` of `admin.js` issues the one request and returns the
401, whether the refresh endpoint would succeed (`netRefreshOk`: `api` of
`app.js` issues three requests) or fail (`netAlways401`: `api` of `app.js`
clears both tokens, `api` of `admin.js` leaves them). -/
theorem Admin.api_does_not_refresh :
    ((Admin.api netRefreshOk worldWithTokens "/me" {}).1.requests.map Request.url = ["/me"] ∧
      (App.api netRefreshOk worldWithTokens "/me" {}).1.requests.map Request.url =
        ["/me", "/auth/refresh", "/me"]) ∧
      (Admin.api netAlways401 worldWithTokens "/me" {}).2 = some { status := 401 } ∧
      getAccess (Admin.api netAlways401 worldWithTokens "/me" {}).1 = JsVal.str "A1" ∧
      getRefresh (Admin.api netAlways401 worldWithTokens "/me" {}).1 = JsVal.str "R1" ∧
      getAccess (App.api netAlways401 worldWithTokens "/me" {}).1 = JsVal.null ∧
      getRefresh (App.api netAlways401 worldWithTokens "/me" {}).1 = JsVal.null := by
  decide

/-- C17 (amended). For every call, `api` of `admin.js` issues exactly one
request (the caller's request with the bearer header), makes no refresh call
and no retry, leaves the token store unchanged and returns what the network
answers, also a 401.  It agrees with `api` of `app.js` exactly on the calls
in which that one does not start a refresh: whenever the first response is
not a 401 or no refresh token is stored. -/
theorem Admin.api_single_request_no_refresh (net : Net) (w : World) (url : String)
    (options : Options) :
    (Admin.api net w url options).1 =
        { w with requests := w.requests ++ [firstRequest w url options] } ∧
      (Admin.api net w url options).1.localStorage = w.localStorage ∧
      (Admin.api net w url options).2 = net w.requests (firstRequest w url options) ∧
      ((∀ res, net w.requests (firstRequest w url options) = some res →
          res.status = 401 → (getRefresh w).truthy = false) →
        App.api net w url options = Admin.api net w url options) := by
  refine ⟨rfl, rfl, rfl, ?_⟩
  intro h
  rw [Admin.api_eq]
  cases h1 : net w.requests (firstRequest w url options) with
  | none => exact App.api_eq_of_rejected net w url options h1
  | some res =>
    refine App.api_eq_of_no_refresh net w url options res h1 ?_
    rintro ⟨h401, href⟩
    rw [h res h1 h401] at href
    exact Bool.noConfusion href

theorem Admin.api_single_request_no_refresh_witness :
    App.api netAlways401 worldAccessOnly "/me" {} =
      Admin.api netAlways401 worldAccessOnly "/me" {} :=
  (Admin.api_single_request_no_refresh netAlways401 worldAccessOnly "/me" {}).2.2.2
    (fun _ _ _ => by decide)

/-- The effect of `loadPlayersAdmin`: `GET /players`, followed by the
`GET /teams` of `loadTeamsIntoDropdowns` exactly when the answer is an array. -/
theorem Admin.loadPlayersAdmin_eq (net : Net) (w : World) :
    Admin.loadPlayersAdmin net w =
      { w with requests := w.requests ++ firstRequest w "/players" {} ::
          (if Admin.playersListed net w = true then [firstRequest w "/teams" {}] else []) } := by
  unfold Admin.loadPlayersAdmin Admin.playersListed
  rw [Admin.api_eq]
  cases net w.requests (firstRequest w "/players" {}) with
  | none => simp
  | some r =>
    cases hf : r.body.fields with
    | none => simp [hf]
    | some players =>
      cases hi : players.ids with
      | none => simp [hf, hi]
      | some ids =>
        simp [hf, hi, Admin.loadTeamsIntoDropdowns, Admin.api_eq, firstRequest, firstHeaders,
          getAccess, getItem]

theorem Admin.markSold_eq (net : Net) (w : World) (pid : String) :
    Admin.markSold net w pid true =
      match net w.requests (Admin.soldRequest w pid) with
      | none => Admin.afterSoldRequest w pid
      | some r =>
        match r.body.fields with
        | none => Admin.afterSoldRequest w pid
        | some d =>
          if (!r.ok || !d.ok) = true then
            alert (Admin.afterSoldRequest w pid) (d.detail.or (JsVal.str "Failed")).toStr
          else
            Admin.loadPlayersAdmin net
              (alert (Admin.afterSoldRequest w pid) "Player marked SOLD") := by
  unfold Admin.markSold Admin.afterSoldRequest Admin.soldRequest
  rw [Admin.api_eq]
  cases net w.requests (firstRequest w ("/auction/sold/" ++ pid) { method := some "POST" }) with
  | none => simp
  | some r =>
    cases r.body.fields with
    | none => simp
    | some d => simp

/-- C16. For `markSold(pid)` of `admin.js`: without confirmation nothing
happens (no request).  With confirmation exactly one `POST` to
`/auction/sold/<pid>` is sent; every later request is a `GET`.  For a
response with a payload, the action is accepted exactly when `r.ok` holds and
the payload's `ok` flag is set: then the success message is shown and the
whole further effect is one call of `loadPlayersAdmin`, that is `GET /players`
and, when that lists the players, the `GET /teams` that fills the team
dropdowns of the rows; neither `loadTeamsForAdmin` nor `loadAuctionStatus`
runs.  Otherwise the payload's `detail`, or "Failed", is shown and no request
follows. -/
theorem Admin.markSold_contract (net : Net) (w : World) (pid : String) :
    Admin.markSold net w pid false = w ∧
      (∃ rest, (Admin.markSold net w pid true).requests =
          w.requests ++ Admin.soldRequest w pid :: rest ∧
        (Admin.soldRequest w pid).method = "POST" ∧
        (Admin.soldRequest w pid).url = "/auction/sold/" ++ pid ∧
        ∀ req ∈ rest, req.method = "GET") ∧
      (∀ r d, net w.requests (Admin.soldRequest w pid) = some r → r.body = Body.val d →
        (r.ok = true → d.ok = true →
          Admin.markSold net w pid true =
            Admin.loadPlayersAdmin net
              (alert (Admin.afterSoldRequest w pid) "Player marked SOLD") ∧
          (Admin.markSold net w pid true).alerts = w.alerts ++ ["Player marked SOLD"] ∧
          (Admin.markSold net w pid true).requests =
            w.requests ++ Admin.soldRequest w pid :: firstRequest w "/players" {} ::
              (if Admin.playersListed net
                  (alert (Admin.afterSoldRequest w pid) "Player marked SOLD") = true
                then [firstRequest w "/teams" {}] else [])) ∧
        ((r.ok = false ∨ d.ok = false) →
          Admin.markSold net w pid true =
            alert (Admin.afterSoldRequest w pid) (d.detail.or (JsVal.str "Failed")).toStr ∧
          (Admin.markSold net w pid true).requests =
            w.requests ++ [Admin.soldRequest w pid])) := by
  have hstep := Admin.markSold_eq net w pid
  have hl := Admin.loadPlayersAdmin_eq net
    (alert (Admin.afterSoldRequest w pid) "Player marked SOLD")
  have hl1 : (Admin.loadPlayersAdmin net
      (alert (Admin.afterSoldRequest w pid) "Player marked SOLD")).requests =
      w.requests ++ Admin.soldRequest w pid :: firstRequest w "/players" {} ::
        (if Admin.playersListed net
            (alert (Admin.afterSoldRequest w pid) "Player marked SOLD") = true
          then [firstRequest w "/teams" {}] else []) := by
    rw [hl]
    simp [alert, Admin.afterSoldRequest, firstRequest, firstHeaders, getAccess, getItem]
  refine ⟨by simp [Admin.markSold], ?_, ?_⟩
  · cases hr : net w.requests (Admin.soldRequest w pid) with
    | none =>
      refine ⟨[], ?_, rfl, rfl, by simp⟩
      rw [hstep, hr]
      rfl
    | some r =>
      cases hf : r.body.fields with
      | none =>
        refine ⟨[], ?_, rfl, rfl, by simp⟩
        rw [hstep, hr]
        simp only [hf]
        rfl
      | some d =>
        by_cases hc : (!r.ok || !d.ok) = true
        · refine ⟨[], ?_, rfl, rfl, by simp⟩
          rw [hstep, hr]
          simp only [hf, hc, if_true]
          rfl
        · refine ⟨firstRequest w "/players" {} ::
              (if Admin.playersListed net
                  (alert (Admin.afterSoldRequest w pid) "Player marked SOLD") = true
                then [firstRequest w "/teams" {}] else []), ?_, rfl, rfl, ?_⟩
          · rw [hstep, hr]
            simp only [hf, hc]
            exact hl1
          · intro req hreq
            simp only [List.mem_cons] at hreq
            rcases hreq with h | h
            · subst h
              rfl
            · split at h
              · simp only [List.mem_singleton] at h
                subst h
                rfl
              · simp at h
  · intro r d hr hd
    have hf : r.body.fields = some d := by rw [hd]; rfl
    constructor
    · intro hok hdok
      have hacc : Admin.markSold net w pid true =
          Admin.loadPlayersAdmin net
            (alert (Admin.afterSoldRequest w pid) "Player marked SOLD") := by
        rw [hstep, hr]
        simp [hf, hok, hdok]
      refine ⟨hacc, ?_, ?_⟩
      · rw [hacc, hl]
        rfl
      · rw [hacc]
        exact hl1
    · intro hno
      have hrej : Admin.markSold net w pid true =
          alert (Admin.afterSoldRequest w pid) (d.detail.or (JsVal.str "Failed")).toStr := by
        rw [hstep, hr]
        rcases hno with h | h <;> simp [hf, h]
      exact ⟨hrej, by rw [hrej]; rfl⟩

theorem Admin.markSold_contract_witness :
    Admin.markSold netAdminAccepts worldWithTokens "P9" true =
        Admin.loadPlayersAdmin netAdminAccepts
          (alert (Admin.afterSoldRequest worldWithTokens "P9") "Player marked SOLD") ∧
      (Admin.markSold netAdminAccepts worldWithTokens "P9" true).alerts =
        worldWithTokens.alerts ++ ["Player marked SOLD"] ∧
      (Admin.markSold netAdminAccepts worldWithTokens "P9" true).requests =
        worldWithTokens.requests ++ Admin.soldRequest worldWithTokens "P9" ::
          firstRequest worldWithTokens "/players" {} ::
            (if Admin.playersListed netAdminAccepts
                (alert (Admin.afterSoldRequest worldWithTokens "P9") "Player marked SOLD") = true
              then [firstRequest worldWithTokens "/teams" {}] else []) :=
  ((Admin.markSold_contract netAdminAccepts worldWithTokens "P9").2.2
    { status := 200, body := Body.val { ok := true } } { ok := true }
    (by decide) rfl).1 (by decide) rfl

/-! ## The bid request -/

/-- The requests of `loadTeams`: the `/teams` request of `api`, then nothing,
or the refresh call, or the refresh call and the retry. -/
theorem App.loadTeams_requests (net : Net) (w : World) :
    ∃ rest, (App.loadTeams net w).requests = w.requests ++ firstRequest w "/teams" {} :: rest ∧
      (rest = [] ∨ rest = [refreshRequest w] ∨
        ∃ d, rest = [refreshRequest w, retryRequest w "/teams" {} d]) := by
  obtain ⟨ls, rest, hw, hrest⟩ := App.api_shape net w "/teams" {}
  refine ⟨rest, ?_, hrest⟩
  unfold App.loadTeams
  rcases hapi : App.api net w "/teams" {} with ⟨w1, o⟩
  rw [hapi] at hw
  simp only at hw
  subst hw
  cases o with
  | none => rfl
  | some r =>
    simp only []
    cases hb : r.body with
    | unreadable => rfl
    | null =>
      cases htp : w.teamPicker with
      | none => simp [htp]
      | some sel => simp [htp, Body.fields]
    | val p =>
      cases htp : w.teamPicker with
      | none => simp [htp]
      | some sel =>
        cases hids : p.ids with
        | none => simp [htp, Body.fields, hids]
        | some ids => simp [htp, Body.fields, hids]

/-- None of the requests of the three refetches goes to `/auction/bid`. -/
theorem App.refetchAfterBid_urls (net : Net) (w : World) :
    ∃ new, (App.refetchAfterBid net w).requests = w.requests ++ new ∧
      ∀ req ∈ new, req.url ≠ "/auction/bid" := by
  obtain ⟨rest, ht, hrest⟩ := App.loadTeams_requests net (App.loadStatus net w)
  obtain ⟨tp2, hl⟩ := App.applyTeamLock_shape (App.loadTeams net (App.loadStatus net w))
  refine ⟨Request.of "/auction/status" {} ::
    firstRequest (App.loadStatus net w) "/teams" {} :: (rest ++ [Request.of "/players/" {}]),
    ?_, ?_⟩
  · simp only [App.refetchAfterBid, App.loadPlayers, fetch]
    rw [hl]
    simp only []
    rw [ht]
    simp [App.loadStatus, fetch]
  · intro req hreq
    simp only [List.mem_cons, List.mem_append, List.mem_singleton, List.mem_nil_iff,
      or_false] at hreq
    rcases hreq with h | h | h | h
    · subst h
      decide
    · subst h
      simp [firstRequest, Request.of]
    · rcases hrest with h0 | h0 | ⟨d, h0⟩
      · subst h0
        simp at h
      · subst h0
        simp only [List.mem_singleton] at h
        subst h
        simp [refreshRequest]
      · subst h0
        simp only [List.mem_cons, List.mem_singleton, List.mem_nil_iff, or_false] at h
        rcases h with h | h
        · subst h
          simp [refreshRequest]
        · subst h
          simp [retryRequest, Request.of]
    · subst h
      decide

/-- Every request that `api` of `app.js` sends to a url other than
`/auth/refresh` has the caller's method and body. -/
theorem App.api_requests_keep_body (net : Net) (w : World) (url : String) (options : Options)
    (hurl : url ≠ "/auth/refresh") :
    ∃ (ls : Dict) (rest : List Request),
      (App.api net w url options).1 =
        { w with localStorage := ls,
                 requests := w.requests ++ firstRequest w url options :: rest } ∧
      ∀ req ∈ firstRequest w url options :: rest, req.url = url →
        req.method = options.method.getD "GET" ∧ req.body = options.body := by
  obtain ⟨ls, rest, hw, hrest⟩ := App.api_shape net w url options
  refine ⟨ls, rest, hw, ?_⟩
  intro req hreq hu
  simp only [List.mem_cons] at hreq
  rcases hreq with h | h
  · subst h
    exact ⟨rfl, rfl⟩
  · rcases hrest with h0 | h0 | ⟨d, h0⟩
    · subst h0
      simp at h
    · subst h0
      simp only [List.mem_singleton] at h
      subst h
      exact absurd hu.symm hurl
    · subst h0
      simp only [List.mem_cons, List.mem_singleton, List.mem_nil_iff, or_false] at h
      rcases h with h | h
      · subst h
        exact absurd hu.symm hurl
      · subst h
        exact ⟨rfl, rfl⟩

/-- C15. In the bid handler of `app.js`, once the amount has passed the local
check: the team is the value of the team picker when that is non-empty, and
otherwise `CURRENT_USER.team_id` (empty when that is missing too); if the
resolved team is empty the handler shows "Select a team first." and issues no
request; and if it is not, the bid request is issued and every request to
`/auction/bid` (the first attempt and the retry of `api`) is a `POST` whose
JSON body is `{player_id, team_id, bid_amount}` with the row's player id, the
resolved team and the amount as `JSON.stringify` writes it, which for a finite
amount is the amount itself. -/
theorem App.bidClick_sends_resolved_team (net : Net) (w : World) (e : App.BidClick)
    (user : User) (row : App.Row)
    (hbtn : e.onBidButton = true) (huser : w.CURRENT_USER = some user)
    (hrow : e.row = some row) (hpid : row.playerId.truthy = true)
    (hamt : (App.bidAmount row).truthy = true) (hpos : (App.bidAmount row).leZero = false) :
    (∀ sel, w.teamPicker = some sel → sel.value ≠ "" →
        App.resolveTeam w user = JsVal.str sel.value) ∧
      ((w.teamPicker = none ∨ ∃ sel, w.teamPicker = some sel ∧ sel.value = "") →
        App.resolveTeam w user =
          if user.team_id.truthy then user.team_id else JsVal.str "") ∧
      ((App.resolveTeam w user).truthy = false →
        App.bidClick net w e = alert w "Select a team first." ∧
        (App.bidClick net w e).requests = w.requests) ∧
      ((App.resolveTeam w user).truthy = true →
        ∃ rest, (App.bidClick net w e).requests =
            w.requests ++
              firstRequest w "/auction/bid"
                (App.bidOptions row.playerId (App.resolveTeam w user) (App.bidAmount row)) ::
                rest ∧
          ∀ req ∈ firstRequest w "/auction/bid"
                (App.bidOptions row.playerId (App.resolveTeam w user) (App.bidAmount row)) ::
                rest,
            req.url = "/auction/bid" →
              req.method = "POST" ∧
              req.body = ReqBody.bidJson row.playerId.toStr (App.resolveTeam w user).toStr
                (jsonNumber (App.bidAmount row))) ∧
      (∀ neg mant ex, App.bidAmount row = JsNum.fin neg mant ex →
        jsonNumber (App.bidAmount row) = some (App.bidAmount row)) := by
  have hguard : (!(App.bidAmount row).truthy || (App.bidAmount row).leZero) = false := by
    simp [hamt, hpos]
  refine ⟨?_, ?_, ?_, ?_, ?_⟩
  · intro sel hsel hv
    simp [App.resolveTeam, hsel, JsVal.truthy, hv]
  · intro h
    rcases h with h | ⟨sel, hsel, hv⟩
    · by_cases ht : user.team_id.truthy = true <;>
        simp [App.resolveTeam, h, ht, JsVal.truthy]
    · by_cases ht : user.team_id.truthy = true <;>
        simp [App.resolveTeam, hsel, hv, ht, JsVal.truthy]
  · intro hteam
    have : App.bidClick net w e = alert w "Select a team first." := by
      unfold App.bidClick
      simp only [hbtn, huser, hrow, hpid, hguard, hteam]
      simp
    exact ⟨this, by rw [this]; rfl⟩
  · intro hteam
    obtain ⟨ls, rest, hw, hbody⟩ := App.api_requests_keep_body net w "/auction/bid"
      (App.bidOptions row.playerId (App.resolveTeam w user) (App.bidAmount row)) (by decide)
    have hstep : App.bidClick net w e =
        match App.api net w "/auction/bid"
          (App.bidOptions row.playerId (App.resolveTeam w user) (App.bidAmount row)) with
        | (w1, none) => alert w1 "Error placing bid."
        | (w1, some res) =>
          match res.body.fields with
          | none => alert w1 "Error placing bid."
          | some data =>
            if (!res.ok || !data.ok) = true then
              alert w1 ((data.detail.or data.message).or (JsVal.str "Bid failed")).toStr
            else App.refetchAfterBid net (alert w1 "Bid placed successfully!") := by
      unfold App.bidClick
      simp only [hbtn, huser, hrow, hpid, hguard, hteam]
      simp
    have hcases : ∃ new, (App.bidClick net w e).requests =
        (App.api net w "/auction/bid"
          (App.bidOptions row.playerId (App.resolveTeam w user) (App.bidAmount row))).1.requests
            ++ new ∧ ∀ req ∈ new, req.url ≠ "/auction/bid" := by
      rw [hstep]
      rcases App.api net w "/auction/bid"
        (App.bidOptions row.playerId (App.resolveTeam w user) (App.bidAmount row)) with ⟨w1, o⟩
      cases o with
      | none => exact ⟨[], by simp [alert], by simp⟩
      | some res =>
        simp only []
        cases res.body.fields with
        | none => exact ⟨[], by simp [alert], by simp⟩
        | some data =>
          simp only []
          by_cases hc : (!res.ok || !data.ok) = true
          · exact ⟨[], by simp [hc, alert], by simp⟩
          · obtain ⟨new, hn, hurl⟩ :=
              App.refetchAfterBid_urls net (alert w1 "Bid placed successfully!")
            refine ⟨new, ?_, hurl⟩
            simp only [hc, Bool.false_eq_true, if_false]
            rw [hn]
            rfl
    obtain ⟨new, hn, hurl⟩ := hcases
    refine ⟨rest ++ new, ?_, ?_⟩
    · rw [hn, hw]
      simp
    · intro req hreq hu
      simp only [List.mem_cons, List.mem_append] at hreq
      have hb : req ∈ firstRequest w "/auction/bid"
          (App.bidOptions row.playerId (App.resolveTeam w user) (App.bidAmount row)) :: rest ∨
          req ∈ new := by
        rcases hreq with h | h | h
        · exact Or.inl (List.mem_cons.mpr (Or.inl h))
        · exact Or.inl (List.mem_cons.mpr (Or.inr h))
        · exact Or.inr h
      rcases hb with h | h
      · exact hbody req h hu
      · exact absurd hu (hurl req h)
  · intro neg mant ex h
    rw [h]
    rfl

theorem App.bidClick_sends_resolved_team_witness :
    App.resolveTeam worldBidder { is_admin := false, team_id := JsVal.str "T2" } =
        JsVal.str "T2" ∧
      ∃ rest, (App.bidClick netBidRejected worldBidder (clickBidP9 "500")).requests =
          worldBidder.requests ++
            firstRequest worldBidder "/auction/bid"
              (App.bidOptions (JsVal.str "P9")
                (App.resolveTeam worldBidder { is_admin := false, team_id := JsVal.str "T2" })
                (App.bidAmount { playerId := JsVal.str "P9", bidInput := some "500" })) ::
              rest ∧
        ∀ req ∈ firstRequest worldBidder "/auction/bid"
              (App.bidOptions (JsVal.str "P9")
                (App.resolveTeam worldBidder { is_admin := false, team_id := JsVal.str "T2" })
                (App.bidAmount { playerId := JsVal.str "P9", bidInput := some "500" })) ::
              rest,
          req.url = "/auction/bid" →
            req.method = "POST" ∧
            req.body = ReqBody.bidJson "P9"
              (App.resolveTeam worldBidder
                { is_admin := false, team_id := JsVal.str "T2" }).toStr
              (jsonNumber (App.bidAmount { playerId := JsVal.str "P9", bidInput := some "500" })) := by
  have h := App.bidClick_sends_resolved_team netBidRejected worldBidder (clickBidP9 "500")
    { is_admin := false, team_id := JsVal.str "T2" }
    { playerId := JsVal.str "P9", bidInput := some "500" }
    rfl rfl rfl (by decide) (by decide!) (by decide!)
  exact ⟨h.1 { options := ["", "T2"], value := "T2", disabled := true } rfl (by decide),
    h.2.2.2.1 (by decide)⟩

/-! ## Boot -/

theorem App.fetchMe_shape (net : Net) (w : World) :
    ∃ (ls : Dict) (rq : List Request) (cu : Option User),
      (App.fetchMe net w).1 =
        { w with localStorage := ls, requests := rq, CURRENT_USER := cu } := by
  obtain ⟨ls, rest, hw, -⟩ := App.api_shape net w "/me" {}
  unfold App.fetchMe
  rcases hapi : App.api net w "/me" {} with ⟨w1, o⟩
  rw [hapi] at hw
  simp only at hw
  subst hw
  cases o with
  | none => exact ⟨ls, w.requests ++ firstRequest w "/me" {} :: rest, w.CURRENT_USER, rfl⟩
  | some res =>
    simp only []
    by_cases hok : res.ok = true
    · cases hf : res.body.fields with
      | none =>
        exact ⟨ls, w.requests ++ firstRequest w "/me" {} :: rest, w.CURRENT_USER, by simp [hok]⟩
      | some data =>
        exact ⟨ls, w.requests ++ firstRequest w "/me" {} :: rest, data.user, by simp [hok]⟩
    · exact ⟨ls, w.requests ++ firstRequest w "/me" {} :: rest, w.CURRENT_USER, by simp [hok]⟩

theorem App.adminLoadPending_shape (net : Net) (w : World) :
    ∃ (ls : Dict) (rq : List Request),
      App.adminLoadPending net w = { w with localStorage := ls, requests := rq } := by
  unfold App.adminLoadPending
  split
  · exact ⟨w.localStorage, w.requests, rfl⟩
  · obtain ⟨ls, rest, hw, -⟩ := App.api_shape net w "/admin/players/pending" {}
    exact ⟨ls, w.requests ++ firstRequest w "/admin/players/pending" {} :: rest, hw⟩

/-- After a successful `fetchMe`, `boot` leaves the screen as
`showMode (showAdminIfNeeded _)` sets it; the rest of `boot` only touches the
store, the request log and the team picker. -/
theorem App.boot_eq_of_user (net : Net) (w w1 : World) (u : User)
    (htok : (!(getAccess w).truthy && !(getRefresh w).truthy) = false)
    (hme : App.fetchMe net w = (w1, some u)) :
    ∃ (ls : Dict) (rq : List Request) (tp : Option Select),
      App.boot net w =
        { App.showMode (App.showAdminIfNeeded w1) with
          localStorage := ls, requests := rq, teamPicker := tp } := by
  unfold App.boot
  simp only [htok, hme]
  obtain ⟨tp2, hl⟩ := App.applyTeamLock_shape
    (App.loadTeams net (App.loadStatus net (App.showMode
      (if App.isAdmin (App.showAdminIfNeeded w1) = true then
        App.adminLoadPending net (App.showAdminIfNeeded w1)
      else App.showAdminIfNeeded w1))))
  obtain ⟨ls, tp, rest, ht⟩ := App.loadTeams_shape net (App.loadStatus net (App.showMode
      (if App.isAdmin (App.showAdminIfNeeded w1) = true then
        App.adminLoadPending net (App.showAdminIfNeeded w1)
      else App.showAdminIfNeeded w1)))
  obtain ⟨ls2, rq2, ha⟩ := App.adminLoadPending_shape net (App.showAdminIfNeeded w1)
  simp only [Bool.false_eq_true, if_false]
  rw [App.loadPlayers, fetch, hl, ht]
  by_cases hadm : App.isAdmin (App.showAdminIfNeeded w1) = true
  · simp only [hadm, if_true, ha]
    exact ⟨_, _, _, rfl⟩
  · simp only [hadm]
    exact ⟨_, _, _, rfl⟩

theorem App.not_shown_setDisplay_none (el : Option String) :
    App.shown (App.setDisplay el "none") = false := by
  cases el <;> simp [App.shown, App.setDisplay]

theorem App.onLoginScreen_showLogin (w : World) (h : w.authCard.isSome = true) :
    App.onLoginScreen (App.showLogin w) = true := by
  obtain ⟨a, ha⟩ := Option.isSome_iff_exists.mp h
  simp only [App.onLoginScreen, App.showLogin, App.not_shown_setDisplay_none, ha]
  simp [App.setDisplay, App.shown]

theorem App.fetchMe_authCard (net : Net) (w : World) :
    (App.fetchMe net w).1.authCard = w.authCard := by
  obtain ⟨ls, rq, cu, h⟩ := App.fetchMe_shape net w
  rw [h]

theorem App.fetchMe_eq_none_iff (net : Net) (w : World) :
    (App.fetchMe net w).2 = none ↔
      ¬ ∃ res data u, (App.api net w "/me" {}).2 = some res ∧ res.ok = true ∧
        res.body = Body.val data ∧ data.user = some u := by
  unfold App.fetchMe
  rcases App.api net w "/me" {} with ⟨w1, o⟩
  cases o with
  | none => simp
  | some res =>
    simp only []
    by_cases hok : res.ok = true
    · cases hb : res.body with
      | unreadable => simp [hok, Body.fields, hb]
      | null => simp [hok, Body.fields, hb]
      | val data =>
        cases hu : data.user with
        | none => simp [hok, Body.fields, hb, hu]
        | some u => simp [hok, Body.fields, hb, hu]
    · simp [hok]

/-- C12. For a document that has the auth card: `boot` ends on the Login
screen exactly when no access token and no refresh token are stored, or
`fetchMe` returns `null` (the `/me` call rejects, its response is not `ok` or
has no JSON payload, or the payload has no user).  In the first case `boot`
is `showLogin` and issues no request; in the second case both tokens are
absent from the store when `boot` finishes. -/
theorem App.boot_login_screen_iff (net : Net) (w : World)
    (hauth : w.authCard.isSome = true) :
    (App.onLoginScreen (App.boot net w) = true ↔
        ((getAccess w).truthy = false ∧ (getRefresh w).truthy = false) ∨
          (App.fetchMe net w).2 = none) ∧
      (((getAccess w).truthy = false ∧ (getRefresh w).truthy = false) →
        App.boot net w = App.showLogin w ∧ (App.boot net w).requests = w.requests) ∧
      (¬ ((getAccess w).truthy = false ∧ (getRefresh w).truthy = false) →
        (App.fetchMe net w).2 = none →
        getAccess (App.boot net w) = JsVal.null ∧ getRefresh (App.boot net w) = JsVal.null) ∧
      ((App.fetchMe net w).2 = none ↔
        ¬ ∃ res data u, (App.api net w "/me" {}).2 = some res ∧ res.ok = true ∧
          res.body = Body.val data ∧ data.user = some u) := by
  have hno : ((getAccess w).truthy = false ∧ (getRefresh w).truthy = false) →
      App.boot net w = App.showLogin w := by
    intro h
    simp [App.boot, h.1, h.2]
  have hfail : ¬ ((getAccess w).truthy = false ∧ (getRefresh w).truthy = false) →
      (App.fetchMe net w).2 = none →
      App.boot net w = App.showLogin (clearTokens (App.fetchMe net w).1) := by
    intro h hme
    have htok : (!(getAccess w).truthy && !(getRefresh w).truthy) = false := by
      by_cases ha : (getAccess w).truthy = true <;> by_cases hr : (getRefresh w).truthy = true <;>
        simp_all
    unfold App.boot
    rcases hf : App.fetchMe net w with ⟨w1, o⟩
    rw [hf] at hme
    simp only at hme
    subst hme
    simp [htok]
  refine ⟨?_, fun h => ⟨hno h, by rw [hno h]; rfl⟩, ?_, App.fetchMe_eq_none_iff net w⟩
  · constructor
    · intro hlogin
      by_contra hcon
      simp only [not_or] at hcon
      obtain ⟨hn, hme⟩ := hcon
      have htok : (!(getAccess w).truthy && !(getRefresh w).truthy) = false := by
        by_cases ha : (getAccess w).truthy = true <;>
          by_cases hr : (getRefresh w).truthy = true <;> simp_all
      obtain ⟨u, hu⟩ := Option.ne_none_iff_exists'.mp hme
      have hpair : App.fetchMe net w = ((App.fetchMe net w).1, some u) := by
        rw [← hu]
      obtain ⟨ls, rq, tp, hb⟩ := App.boot_eq_of_user net w (App.fetchMe net w).1 u htok hpair
      obtain ⟨a, ha⟩ := Option.isSome_iff_exists.mp hauth
      have hac : (App.fetchMe net w).1.authCard = some a := by
        rw [App.fetchMe_authCard, ha]
      rw [hb] at hlogin
      have hsa : (App.showAdminIfNeeded (App.fetchMe net w).1).authCard = some a := by
        unfold App.showAdminIfNeeded
        split <;> exact hac
      simp [App.onLoginScreen, App.showMode, App.shown, App.setDisplay, hsa] at hlogin
    · intro h
      by_cases hn : (getAccess w).truthy = false ∧ (getRefresh w).truthy = false
      · rw [hno hn]
        exact App.onLoginScreen_showLogin w hauth
      · have hme : (App.fetchMe net w).2 = none := by
          rcases h with h | h
          · exact absurd h hn
          · exact h
        rw [hfail hn hme]
        apply App.onLoginScreen_showLogin
        show (App.fetchMe net w).1.authCard.isSome = true
        rw [App.fetchMe_authCard]
        exact hauth
  · intro hn hme
    rw [hfail hn hme]
    exact ⟨getAccess_clearTokens _, getRefresh_clearTokens _⟩

theorem App.boot_login_screen_iff_witness :
    App.onLoginScreen (App.boot netAlways401 pageWithTokens) = true ∧
      getAccess (App.boot netAlways401 pageWithTokens) = JsVal.null ∧
      getRefresh (App.boot netAlways401 pageWithTokens) = JsVal.null := by
  have h := App.boot_login_screen_iff netAlways401 pageWithTokens rfl
  exact ⟨h.1.mpr (Or.inr (by decide)), h.2.2.1 (by decide) (by decide)⟩

theorem Response.status_ne_401_of_ok (r : Response) (h : r.ok = true) : r.status ≠ 401 := by
  intro h401
  simp [Response.ok, h401] at h

/-- The result of `fetchMe` when `/me` is answered `ok` with a payload. -/
theorem App.fetchMe_eq_of_ok (net : Net) (w : World) (res : Response) (data : Payload)
    (hme : net w.requests (firstRequest w "/me" {}) = some res)
    (hok : res.ok = true) (hbody : res.body = Body.val data) :
    App.fetchMe net w =
      ({ w with requests := w.requests ++ [firstRequest w "/me" {}],
                CURRENT_USER := data.user }, data.user) := by
  have hf : res.body.fields = some data := by rw [hbody]; rfl
  unfold App.fetchMe
  rw [App.api_eq_of_no_refresh net w "/me" {} res hme
    (fun h => Response.status_ne_401_of_ok res hok h.1)]
  simp [hok, hf]

/-- The result of `loadTeams` when `/teams` is answered `ok` with an array
and the document has the team picker. -/
theorem App.loadTeams_eq_of_ok (net : Net) (w : World) (rt : Response) (p : Payload)
    (ids : List String) (sel : Select)
    (hteams : net w.requests (firstRequest w "/teams" {}) = some rt)
    (hok : rt.ok = true) (hbody : rt.body = Body.val p) (hids : p.ids = some ids)
    (hsel : w.teamPicker = some sel) :
    App.loadTeams net w =
      { w with requests := w.requests ++ [firstRequest w "/teams" {}],
               teamPicker := some { sel with options := "" :: ids, value := "" } } := by
  unfold App.loadTeams
  rw [App.api_eq_of_no_refresh net w "/teams" {} rt hteams
    (fun h => Response.status_ne_401_of_ok rt hok h.1)]
  simp [hbody, Body.fields, hids, hsel]

/-- C13 (counterexample). The access token is valid and `/me` returns the
non-admin user bound to team `T1`: after `boot` the app card is hidden and the
mode card is the one shown. -/
theorem App.boot_hides_app_card :
    (App.boot netUserT1 pageWithTokens).appCard = some "none" ∧
      (App.boot netUserT1 pageWithTokens).modeCard = some "" ∧
      App.shown (App.boot netUserT1 pageWithTokens).appCard = false ∧
      App.onModeScreen (App.boot netUserT1 pageWithTokens) = true := by
  decide

/-- C13 (amended). When `boot` runs with a valid access token (the `/me`
call is answered `ok`) and whoami returns the user
`{is_admin: false, team_id: "T1"}`, then after `boot` the Mode-select screen
(mode card) is the visible screen and the app card is not shown; the admin
controls (start and stop buttons, admin card, admin start wrapper) are hidden;
and when the team list that `boot` loads contains `T1`, the team picker's
value is `T1` and it is disabled. -/
theorem App.boot_bound_user_shows_mode_screen (net : Net) (w : World) (res rt : Response)
    (data p : Payload) (ids : List String) (sel : Select)
    (hacc : (getAccess w).truthy = true)
    (hme : net w.requests (firstRequest w "/me" {}) = some res)
    (hok : res.ok = true) (hbody : res.body = Body.val data)
    (huser : data.user = some { is_admin := false, team_id := JsVal.str "T1" })
    (hteams : net (w.requests ++ [firstRequest w "/me" {}, Request.of "/auction/status" {}])
      (firstRequest w "/teams" {}) = some rt)
    (hrok : rt.ok = true) (hrbody : rt.body = Body.val p) (hids : p.ids = some ids)
    (hT1 : "T1" ∈ ids)
    (hsel : w.teamPicker = some sel) (hmode : w.modeCard.isSome = true) :
    App.onModeScreen (App.boot net w) = true ∧
      App.shown (App.boot net w).appCard = false ∧
      (App.boot net w).teamPicker =
        some { options := "" :: ids, value := "T1", disabled := true } ∧
      App.shown (App.boot net w).btnStart = false ∧
      App.shown (App.boot net w).btnStop = false ∧
      App.shown (App.boot net w).adminCard = false ∧
      (App.boot net w).adminStartWrapper ≠ some false ∧
      (App.boot net w).CURRENT_USER =
        some { is_admin := false, team_id := JsVal.str "T1" } := by
  have htok : (!(getAccess w).truthy && !(getRefresh w).truthy) = false := by simp [hacc]
  have hfm := App.fetchMe_eq_of_ok net w res data hme hok hbody
  rw [huser] at hfm
  have hlt := App.loadTeams_eq_of_ok net
    (App.loadStatus net (App.showMode (App.showAdminIfNeeded
      { w with requests := w.requests ++ [firstRequest w "/me" {}],
               CURRENT_USER := some { is_admin := false, team_id := JsVal.str "T1" } })))
    rt p ids sel
    (by simpa [App.loadStatus, fetch, App.showMode, App.showAdminIfNeeded, App.isAdmin,
      firstRequest, firstHeaders, getAccess, getItem] using hteams)
    hrok hrbody hids
    (by simp [App.loadStatus, fetch, App.showMode, App.showAdminIfNeeded, App.isAdmin, hsel])
  have hboot : App.boot net w =
      App.loadPlayers net (App.applyTeamLock (App.loadTeams net
        (App.loadStatus net (App.showMode (App.showAdminIfNeeded
          { w with requests := w.requests ++ [firstRequest w "/me" {}],
                   CURRENT_USER := some { is_admin := false, team_id := JsVal.str "T1" } }))))) := by
    unfold App.boot
    simp only [htok, hfm]
    simp [App.isAdmin, App.showAdminIfNeeded]
  rw [hboot, hlt]
  obtain ⟨m, hm⟩ := Option.isSome_iff_exists.mp hmode
  have hin : "T1" ∈ "" :: ids := List.mem_cons_of_mem _ hT1
  refine ⟨?_, ?_, ?_, ?_, ?_, ?_, ?_, ?_⟩
  · simp [App.onModeScreen, App.loadPlayers, fetch, App.applyTeamLock, App.loadStatus,
      App.showMode, App.showAdminIfNeeded, App.isAdmin, JsVal.truthy, hm,
      App.not_shown_setDisplay_none]
    simp [App.setDisplay, App.shown]
  · simp [App.loadPlayers, fetch, App.applyTeamLock, App.loadStatus,
      App.showMode, App.showAdminIfNeeded, App.isAdmin, JsVal.truthy,
      App.not_shown_setDisplay_none]
  · simp [App.loadPlayers, fetch, App.applyTeamLock, App.loadStatus,
      App.showMode, App.showAdminIfNeeded, App.isAdmin, JsVal.truthy, Select.setValue,
      JsVal.toStr, hT1]
  · simp [App.loadPlayers, fetch, App.applyTeamLock, App.loadStatus,
      App.showMode, App.showAdminIfNeeded, App.isAdmin, JsVal.truthy,
      App.not_shown_setDisplay_none]
  · simp [App.loadPlayers, fetch, App.applyTeamLock, App.loadStatus,
      App.showMode, App.showAdminIfNeeded, App.isAdmin, JsVal.truthy,
      App.not_shown_setDisplay_none]
  · simp [App.loadPlayers, fetch, App.applyTeamLock, App.loadStatus,
      App.showMode, App.showAdminIfNeeded, App.isAdmin, JsVal.truthy,
      App.not_shown_setDisplay_none]
  · simp [App.loadPlayers, fetch, App.applyTeamLock, App.loadStatus,
      App.showMode, App.showAdminIfNeeded, App.isAdmin, JsVal.truthy]
  · simp [App.loadPlayers, fetch, App.applyTeamLock, App.loadStatus,
      App.showMode, App.showAdminIfNeeded, App.isAdmin, JsVal.truthy]

theorem App.boot_bound_user_shows_mode_screen_witness :
    App.onModeScreen (App.boot netUserT1 pageWithTokens) = true ∧
      App.shown (App.boot netUserT1 pageWithTokens).appCard = false ∧
      (App.boot netUserT1 pageWithTokens).teamPicker =
        some { options := "" :: ["T1", "T2"], value := "T1", disabled := true } ∧
      App.shown (App.boot netUserT1 pageWithTokens).btnStart = false ∧
      App.shown (App.boot netUserT1 pageWithTokens).btnStop = false ∧
      App.shown (App.boot netUserT1 pageWithTokens).adminCard = false ∧
      (App.boot netUserT1 pageWithTokens).adminStartWrapper ≠ some false ∧
      (App.boot netUserT1 pageWithTokens).CURRENT_USER =
        some { is_admin := false, team_id := JsVal.str "T1" } :=
  App.boot_bound_user_shows_mode_screen netUserT1 pageWithTokens
    { status := 200,
      body := Body.val { user := some { is_admin := false, team_id := JsVal.str "T1" } } }
    { status := 200, body := Body.val { ids := some ["T1", "T2"] } }
    { user := some { is_admin := false, team_id := JsVal.str "T1" } }
    { ids := some ["T1", "T2"] } ["T1", "T2"]
    { options := [""], value := "", disabled := false }
    (by decide) (by decide) (by decide) rfl rfl (by decide) (by decide) rfl rfl (by decide)
    rfl rfl

/-! ## The session and `CURRENT_USER` -/

/-- C14 (the code at the failing input). On a fresh page (`CURRENT_USER` is
null, nothing stored) the admin login form is submitted with the credentials
of a non-admin account: the login succeeds, `fetchMe` sets `CURRENT_USER`, the
handler clears the tokens and shows "This account is not an admin.".  The
state reached has both tokens absent and a non-null `CURRENT_USER`; a logout
from there resets it.  Such a state is also reached when a logged-in user's
call of `api` runs into a failed refresh. -/
theorem App.adminLogin_rejection_keeps_current_user :
    (getAccess (App.run netUserT1 pageFresh [App.Event.boot, App.Event.adminLogin loginForm]) =
        JsVal.null ∧
      getRefresh (App.run netUserT1 pageFresh [App.Event.boot, App.Event.adminLogin loginForm]) =
        JsVal.null ∧
      (App.run netUserT1 pageFresh [App.Event.boot, App.Event.adminLogin loginForm]).CURRENT_USER =
        some { is_admin := false, team_id := JsVal.str "T1" } ∧
      (App.run netUserT1 pageFresh [App.Event.boot, App.Event.adminLogin loginForm]).alerts =
        ["This account is not an admin."]) ∧
      (App.run netUserT1 pageFresh
        [App.Event.boot, App.Event.adminLogin loginForm, App.Event.logout]).CURRENT_USER = none ∧
      (getAccess (App.run netSessionExpires pageFresh
          [App.Event.boot, App.Event.login loginForm]) = JsVal.str "A1" ∧
        getAccess (App.run netSessionExpires pageFresh
          [App.Event.boot, App.Event.login loginForm, App.Event.api "/auction/start"
            { method := some "POST" }]) = JsVal.null ∧
        getRefresh (App.run netSessionExpires pageFresh
          [App.Event.boot, App.Event.login loginForm, App.Event.api "/auction/start"
            { method := some "POST" }]) = JsVal.null ∧
        (App.run netSessionExpires pageFresh
          [App.Event.boot, App.Event.login loginForm, App.Event.api "/auction/start"
            { method := some "POST" }]).CURRENT_USER =
          some { is_admin := false, team_id := JsVal.str "T1" }) := by
  decide

end CricketAuction
